import Mathlib

/-!
# Amaca/terrain — the mesh generator of `src/script.js`

A shallow embedding of `generateMountain` (script.js, lines 93-155) and of the
collaborators it drives.

Conventions of the embedding

* A JavaScript number is a rational (`ℚ`).  The product of line 147 is a
  double-precision operation: its exact value is rounded by `roundDouble`; the
  store into the position buffer, a `Float32Array`, rounds by `fround`.  Both
  round to nearest, ties to even, with gradual underflow; the exponent range is
  not bounded above, so `Infinity` and `NaN` are outside the model.  Segment
  counts are natural numbers (the panel sliders of lines 33-38 move in whole
  steps).
* `Math.random` is a stream `random : ℕ → ℚ`; `random d` is the value returned
  by call number `d` (from 0) made during one run of the height loop.  The loop
  state carries the number of calls made so far.
* The position buffer (`geometry.attributes.position.array`, a fixed-length
  typed array) is a `List ℚ`; a store past the end is dropped and the length
  never changes.
* Objects live in per-class heaps (lists); a reference is the index at which
  the object was allocated.  The module variables of lines 93-98 hold
  `Option ℕ` (`none` is `null` / `undefined`).
* Calling a method on `null` / `undefined` throws; a throwing statement yields
  `none`.
* The rendering engine and the panel library are external collaborators.  The
  two engine operations that produce position buffers are parameters of the
  embedding (`Engine`); the remaining operations (dispose, scene add/remove,
  panel add/destroy) follow the specification, §6.
* A run of the program is a list of `Event`s applied to `initial`: calls of
  `generateMountain`, user input on the material controllers, and
  `scene.add(camera)`.
-/

namespace Terrain

/-! ## Floating-point numbers -/

/-- Round a rational to the nearest integer, a tie going to the even one. -/
def roundHalfEven (x : ℚ) : ℤ :=
  let f := ⌊x⌋
  if x - f < 1 / 2 then f
  else if 1 / 2 < x - f then f + 1
  else if f % 2 = 0 then f else f + 1

/-- Round a rational to the nearest number of a binary floating-point format
with `precision` significant bits and least normal exponent `emin`, ties to
even: in the binade `[2 ^ e, 2 ^ (e + 1))` the representable numbers are the
multiples of `2 ^ (e - (precision - 1))`; below `2 ^ emin` (the subnormal range)
they are the multiples of `2 ^ (emin - (precision - 1))`. -/
def roundBinary (precision : ℕ) (emin : ℤ) (x : ℚ) : ℚ :=
  if x = 0 then 0
  else
    let e := max (Int.log 2 |x|) emin
    let quantum : ℚ := 2 ^ (e - (precision - 1))
    roundHalfEven (x / quantum) * quantum

/-- The result of a double-precision operation whose exact value is `x`
(binary64: 53 significant bits, least normal exponent -1022). -/
def roundDouble (x : ℚ) : ℚ := roundBinary 53 (-1022) x

/-- The value a `Float32Array` holds after `x` is stored into it, that is
`Math.fround(x)` (binary32: 24 significant bits, least normal exponent -126). -/
def fround (x : ℚ) : ℚ := roundBinary 24 (-126) x

/-! ## Numbers, parameters (lines 10-21) -/

/-- The `parameters` record of lines 10-21. -/
structure Parameters where
  planeWidth : ℚ
  planeHeight : ℚ
  segmentsWidth : ℕ
  segmentsHeight : ℕ
  mountainHeight : ℚ
  animate : Bool
  bgColor : ℕ
  spin : ℚ
  angle : ℚ
  power : ℚ

/-- The literal record of lines 10-21; the literal `0.31` denotes the double
nearest to 31/100. -/
def defaultParameters : Parameters :=
  { planeWidth := 5, planeHeight := 5, segmentsWidth := 20, segmentsHeight := 20,
    mountainHeight := roundDouble (31 / 100), animate := true, bgColor := 0x000000,
    spin := 1, angle := 1, power := 1 }

/-! ## The position buffer and the height loop (lines 143-148) -/

/-- Indexed store into a fixed-length `Float32Array`, `vertices[i] = v`: an
index inside the array receives `v` rounded to single precision, an index past
the end is ignored and the array keeps its length. -/
def typedArraySet (vertices : List ℚ) (i : ℕ) (v : ℚ) : List ℚ :=
  if i < vertices.length then vertices.set i (fround v) else vertices

/-- The state of a running loop: the buffer and the number of calls of
`Math.random` made so far. -/
structure LoopState where
  vertices : List ℚ
  draws : ℕ

/-- One iteration of the loop body of lines 146-147:
`const i3 = i * 3; vertices[i3 + 1] = Math.random() * parameters.mountainHeight`.
`Math.random()` is called once, the product is a double, the store rounds it to
single precision. -/
def heightLoopBody (mountainHeight : ℚ) (random : ℕ → ℚ) (st : LoopState) (i : ℕ) :
    LoopState :=
  let i3 := i * 3
  { vertices :=
      typedArraySet st.vertices (i3 + 1) (roundDouble (random st.draws * mountainHeight)),
    draws := st.draws + 1 }

/-- The loop of lines 145-148, `for (let i = 0; i <= vertices.length; i++)`:
the body runs for `i = 0, 1, …, vertices.length` (the length of a typed array
is fixed, so the bound is the length on entry). -/
def heightLoopRun (mountainHeight : ℚ) (random : ℕ → ℚ) (vertices : List ℚ) : LoopState :=
  (List.range (vertices.length + 1)).foldl (heightLoopBody mountainHeight random)
    { vertices := vertices, draws := 0 }

/-- The buffer left by the loop of lines 145-148. -/
def heightLoop (mountainHeight : ℚ) (random : ℕ → ℚ) (vertices : List ℚ) : List ℚ :=
  (heightLoopRun mountainHeight random vertices).vertices

/-- Number of calls of `Math.random` made by the loop of lines 145-148. -/
def heightLoopDraws (mountainHeight : ℚ) (random : ℕ → ℚ) (vertices : List ℚ) : ℕ :=
  (heightLoopRun mountainHeight random vertices).draws

/-- The hardened loop recommended by the specification (§7, §9): the same body
run exactly over the valid vertex indices `[0, vertexCount)`, where
`vertexCount = vertices.length / 3`. -/
def hardenedLoopRun (mountainHeight : ℚ) (random : ℕ → ℚ) (vertices : List ℚ) : LoopState :=
  (List.range (vertices.length / 3)).foldl (heightLoopBody mountainHeight random)
    { vertices := vertices, draws := 0 }

/-- The buffer left by the hardened loop. -/
def hardenedLoop (mountainHeight : ℚ) (random : ℕ → ℚ) (vertices : List ℚ) : List ℚ :=
  (hardenedLoopRun mountainHeight random vertices).vertices

/-- Number of calls of `Math.random` made by the hardened loop. -/
def hardenedLoopDraws (mountainHeight : ℚ) (random : ℕ → ℚ) (vertices : List ℚ) : ℕ :=
  (hardenedLoopRun mountainHeight random vertices).draws

/-! ## The rendering engine: plane geometry and rotation (lines 114-119, 141)

The engine is an external collaborator.  `generateMountain` is embedded over
an arbitrary `Engine`; the engine described by the specification is
`specEngine`. -/

/-- Modelled from the spec: the engine's plane-geometry constructor (§4.1 step 2,
§6), which is not part of this repository.  It yields the position buffer of a
planar grid sized `width × height`, subdivided into
`widthSegments × heightSegments` quads: rows of `widthSegments + 1` vertices,
`heightSegments + 1` rows, three components `(x, y, 0)` per vertex, the grid
centred on the origin. -/
def planeGeometryPositions (width height : ℚ) (widthSegments heightSegments : ℕ) : List ℚ :=
  let segmentWidth := width / widthSegments
  let segmentHeight := height / heightSegments
  (List.range (heightSegments + 1)).flatMap fun iy =>
    (List.range (widthSegments + 1)).flatMap fun ix =>
      [ix * segmentWidth - width / 2, -(iy * segmentHeight - height / 2), 0]

/-- The cosine and the sine of the tilt angle `-(Math.PI / 2) + 0.5` of line
141 as the engine computes them; both are irrational, so the embedding takes
them as parameters. -/
structure Tilt where
  cos : ℚ
  sin : ℚ

/-- Modelled from the spec: the engine's rotation of a geometry about the X
axis (§4.1 step 5), applied to every vertex `(x, y, z)` of the position buffer:
`x` is kept, `y` and `z` are mixed by the rotation matrix. -/
def rotateXPositions (tilt : Tilt) : List ℚ → List ℚ
  | x :: y :: z :: rest =>
    x :: (tilt.cos * y - tilt.sin * z) :: (tilt.sin * y + tilt.cos * z) ::
      rotateXPositions tilt rest
  | rest => rest

/-- The two engine operations that produce position buffers, taken as
parameters: the plane-geometry constructor of lines 114-119 (width, height,
width segments, height segments) and `rotateX(-(Math.PI / 2) + 0.5)` of line
141, as maps on position buffers. -/
structure Engine where
  planeGeometry : ℚ → ℚ → ℕ → ℕ → List ℚ
  rotateX : List ℚ → List ℚ

/-- The engine as the specification describes it (§4.1 steps 2 and 5, §6). -/
def specEngine (tilt : Tilt) : Engine :=
  { planeGeometry := planeGeometryPositions, rotateX := rotateXPositions tilt }

/-! ## Objects of the collaborators

Object identity is a natural number: the index of the object in the heap of
its class. -/

/-- The five textures loaded at lines 49-53. -/
inductive Texture where
  | colorTexture
  | heightTexture
  | normalTexture
  | ambientOcclusionTexture
  | roughnessTexture
  deriving DecidableEq

/-- The engine's face-culling constants. -/
inductive Side where
  | FrontSide
  | BackSide
  | DoubleSide
  deriving DecidableEq

/-- A geometry: its position buffer and whether `dispose()` has been called. -/
structure BufferGeometry where
  position : List ℚ
  disposed : Bool

/-- A material: the fields set at lines 120-133 and whether `dispose()` has
been called. -/
structure MeshStandardMaterial where
  color : ℕ
  side : Side
  alphaTest : ℚ
  wireframe : Bool
  map : Texture
  transparent : Bool
  aoMap : Texture
  displacementMap : Texture
  displacementScale : ℚ
  normalMap : Texture
  roughnessMap : Texture
  roughness : ℚ
  disposed : Bool

/-- A mesh node: the geometry and material it pairs, and its shadow flag
(`false` on construction). -/
structure Mesh where
  geometry : ℕ
  material : ℕ
  castShadow : Bool
  deriving DecidableEq

/-- The three panel folders of lines 23-25. -/
inductive Folder where
  | guiMountainsSettings
  | guiLights
  | guiBackground
  deriving DecidableEq

/-- The object a panel controller is bound to. -/
inductive Bound where
  | parameters
  | ambientLight
  | pointLight
  | material (m : ℕ)
  deriving DecidableEq

/-- The field a panel controller edits. -/
inductive Property where
  | planeWidth
  | planeHeight
  | segmentsWidth
  | segmentsHeight
  | mountainHeight
  | animate
  | intensity
  | color
  | wireframe
  | displacementScale
  deriving DecidableEq

/-- A panel controller (a live binding between a widget and `object[property]`). -/
structure Controller where
  parent : Folder
  object : Bound
  property : Property
  deriving DecidableEq

/-- A child of the scene graph. -/
inductive SceneNode where
  | ambientLight
  | pointLight
  | camera
  | mesh (m : ℕ)
  deriving DecidableEq

/-! ## Program state -/

/-- The module variables of lines 93-98 together with the heaps of the
collaborators: every geometry, material, mesh and controller ever created, the
children of the three panel folders and the children of the scene. -/
structure World where
  geometry : Option ℕ
  material : Option ℕ
  mesh : Option ℕ
  changeColor : Option ℕ
  changeWireframe : Option ℕ
  changeDisplacement : Option ℕ
  geometries : List BufferGeometry
  materials : List MeshStandardMaterial
  meshes : List Mesh
  controllers : List Controller
  guiMountainsSettings : List ℕ
  guiLights : List ℕ
  guiBackground : List ℕ
  scene : List SceneNode

/-- The controllers registered before the first call of `generateMountain`:
lines 27-41 (five parameter sliders), line 42 (animate), lines 73-74 and 85-86
(light intensity and colour). -/
def staticControllers : List Controller :=
  [ ⟨.guiMountainsSettings, .parameters, .planeWidth⟩,
    ⟨.guiMountainsSettings, .parameters, .planeHeight⟩,
    ⟨.guiMountainsSettings, .parameters, .segmentsWidth⟩,
    ⟨.guiMountainsSettings, .parameters, .segmentsHeight⟩,
    ⟨.guiMountainsSettings, .parameters, .mountainHeight⟩,
    ⟨.guiBackground, .parameters, .animate⟩,
    ⟨.guiLights, .ambientLight, .intensity⟩,
    ⟨.guiLights, .ambientLight, .color⟩,
    ⟨.guiLights, .pointLight, .intensity⟩,
    ⟨.guiLights, .pointLight, .color⟩ ]

/-- The state in which line 155 makes the first call: lines 93-98 have run
(`geometry`, `material`, `mesh` are `null`, the three handles `undefined`), no
geometry, material or mesh exists, the panel holds the static controllers and
the scene holds the two lights (lines 75, 87). -/
def initial : World :=
  { geometry := none, material := none, mesh := none,
    changeColor := none, changeWireframe := none, changeDisplacement := none,
    geometries := [], materials := [], meshes := [],
    controllers := staticControllers,
    guiMountainsSettings := ([0, 1, 2, 3, 4] : List ℕ),
    guiLights := ([6, 7, 8, 9] : List ℕ),
    guiBackground := ([5] : List ℕ),
    scene := [.ambientLight, .pointLight] }

/-! ## The statements of `generateMountain` (lines 100-153) -/

/-- Modelled from the spec: the engine's `dispose` on a geometry (§6, "dispose
operations on geometry/material"; §4.1 step 1, "release its geometry and
material resources"). The engine is not part of this repository; the release
is recorded on the object. -/
def BufferGeometry.dispose (g : BufferGeometry) : BufferGeometry :=
  { g with disposed := true }

/-- Modelled from the spec: the engine's `dispose` on a material (§6). -/
def MeshStandardMaterial.dispose (m : MeshStandardMaterial) : MeshStandardMaterial :=
  { m with disposed := true }

/-- Modelled from the spec: the scene graph's `remove` (§6): the node is taken
out of the children. -/
def sceneRemove (node : SceneNode) (children : List SceneNode) : List SceneNode :=
  children.erase node

/-- Modelled from the spec: the scene graph's `add` (§6): the node is detached
from where it was attached and appended to the children. -/
def sceneAdd (node : SceneNode) (children : List SceneNode) : List SceneNode :=
  children.erase node ++ [node]

/-- A statement: a state transformer that yields `none` when it throws. -/
abbrev Statement := World → Option World

/-- Line 106, `geometry.dispose()`. -/
def geometryDispose : Statement := fun s =>
  match s.geometry with
  | none => none
  | some g =>
    match s.geometries[g]? with
    | none => none
    | some obj => some { s with geometries := s.geometries.set g obj.dispose }

/-- Line 107, `material.dispose()`. -/
def materialDispose : Statement := fun s =>
  match s.material with
  | none => none
  | some m =>
    match s.materials[m]? with
    | none => none
    | some obj => some { s with materials := s.materials.set m obj.dispose }

/-- Modelled from the spec: the panel layer's `destroy` operation (§6), which
detaches a binding: the controller is removed from the children of its folder. -/
def controllerDestroy (c : ℕ) : Statement := fun s =>
  match s.controllers[c]? with
  | none => none
  | some ctl =>
    match ctl.parent with
    | .guiMountainsSettings =>
      some { s with guiMountainsSettings := s.guiMountainsSettings.erase c }
    | .guiLights => some { s with guiLights := s.guiLights.erase c }
    | .guiBackground => some { s with guiBackground := s.guiBackground.erase c }

/-- Line 108, `changeColor.destroy()`. -/
def changeColorDestroy : Statement := fun s =>
  match s.changeColor with
  | none => none
  | some c => controllerDestroy c s

/-- Line 109, `changeWireframe.destroy()`. -/
def changeWireframeDestroy : Statement := fun s =>
  match s.changeWireframe with
  | none => none
  | some c => controllerDestroy c s

/-- Line 110, `changeDisplacement.destroy()`. -/
def changeDisplacementDestroy : Statement := fun s =>
  match s.changeDisplacement with
  | none => none
  | some c => controllerDestroy c s

/-- Line 111, `scene.remove(mesh)`. -/
def sceneRemoveMesh : Statement := fun s =>
  match s.mesh with
  | none => some s
  | some m => some { s with scene := sceneRemove (.mesh m) s.scene }

/-- Lines 114-119, `geometry = new THREE.PlaneGeometry(...)`. -/
def newPlaneGeometry (engine : Engine) (parameters : Parameters) : Statement := fun s =>
  some { s with
    geometries := s.geometries ++
      [{ position := engine.planeGeometry parameters.planeWidth parameters.planeHeight
          parameters.segmentsWidth parameters.segmentsHeight,
         disposed := false }],
    geometry := some s.geometries.length }

/-- The configuration record of lines 120-133. -/
def newMaterial : MeshStandardMaterial :=
  { color := 0xababab,
    side := .DoubleSide,
    alphaTest := 1,
    wireframe := false,
    map := .colorTexture,
    transparent := true,
    aoMap := .ambientOcclusionTexture,
    displacementMap := .heightTexture,
    displacementScale := 0,
    normalMap := .normalTexture,
    roughnessMap := .roughnessTexture,
    roughness := 10,
    disposed := false }

/-- Lines 120-133, `material = new THREE.MeshStandardMaterial({...})`. -/
def newMeshStandardMaterial : Statement := fun s =>
  some { s with materials := s.materials ++ [newMaterial], material := some s.materials.length }

/-- Modelled from the spec: the panel layer's `add` / `addColor` (§6): a new
controller bound to `object[property]` is created and appended to the children
of the folder; its handle is returned. -/
def guiAdd (folder : Folder) (object : Bound) (property : Property) (s : World) : World × ℕ :=
  let c := s.controllers.length
  let s1 := { s with controllers := s.controllers ++ [Controller.mk folder object property] }
  match folder with
  | .guiMountainsSettings => ({ s1 with guiMountainsSettings := s1.guiMountainsSettings ++ [c] }, c)
  | .guiLights => ({ s1 with guiLights := s1.guiLights ++ [c] }, c)
  | .guiBackground => ({ s1 with guiBackground := s1.guiBackground ++ [c] }, c)

/-- Line 135, `changeDisplacement = guiMountainsSettings.add(material, 'displacementScale')…`. -/
def addDisplacement : Statement := fun s =>
  match s.material with
  | none => none
  | some m =>
    let r := guiAdd .guiMountainsSettings (.material m) .displacementScale s
    some { r.1 with changeDisplacement := some r.2 }

/-- Line 136, `changeColor = guiMountainsSettings.addColor(material, 'color')`. -/
def addColor : Statement := fun s =>
  match s.material with
  | none => none
  | some m =>
    let r := guiAdd .guiMountainsSettings (.material m) .color s
    some { r.1 with changeColor := some r.2 }

/-- Line 137, `changeWireframe = guiBackground.add(material, 'wireframe')`. -/
def addWireframe : Statement := fun s =>
  match s.material with
  | none => none
  | some m =>
    let r := guiAdd .guiBackground (.material m) .wireframe s
    some { r.1 with changeWireframe := some r.2 }

/-- Line 139, `mesh = new THREE.Mesh(geometry, material)`. -/
def newMesh : Statement := fun s =>
  match s.geometry, s.material with
  | some g, some m =>
    some { s with meshes := s.meshes ++ [Mesh.mk g m false], mesh := some s.meshes.length }
  | _, _ => none

/-- Line 141, `geometry.rotateX(-(Math.PI / 2) + 0.5)`. -/
def geometryRotateX (engine : Engine) : Statement := fun s =>
  match s.geometry with
  | none => none
  | some g =>
    match s.geometries[g]? with
    | none => none
    | some obj =>
      some { s with
        geometries := s.geometries.set g { obj with position := engine.rotateX obj.position } }

/-- Lines 143-148: `const vertices = geometry.attributes.position.array` and
the height loop, which stores into that array in place. -/
def displaceVertices (parameters : Parameters) (random : ℕ → ℚ) : Statement := fun s =>
  match s.geometry with
  | none => none
  | some g =>
    match s.geometries[g]? with
    | none => none
    | some obj =>
      some { s with
        geometries := s.geometries.set g
          { obj with position := heightLoop parameters.mountainHeight random obj.position } }

/-- Line 150, `mesh.castShadow = true`. -/
def meshCastShadow : Statement := fun s =>
  match s.mesh with
  | none => none
  | some m =>
    match s.meshes[m]? with
    | none => none
    | some obj => some { s with meshes := s.meshes.set m { obj with castShadow := true } }

/-- Line 152, `scene.add(mesh)`. -/
def sceneAddMesh : Statement := fun s =>
  match s.mesh with
  | none => none
  | some m => some { s with scene := sceneAdd (.mesh m) s.scene }

/-- The destroy branch, lines 106-111, in program order. -/
def destroyOld : List Statement :=
  [geometryDispose, materialDispose, changeColorDestroy, changeWireframeDestroy,
   changeDisplacementDestroy, sceneRemoveMesh]

/-- The statements of lines 114-152, in program order. -/
def createNew (engine : Engine) (parameters : Parameters) (random : ℕ → ℚ) : List Statement :=
  [newPlaneGeometry engine parameters, newMeshStandardMaterial, addDisplacement, addColor,
   addWireframe, newMesh, geometryRotateX engine, displaceVertices parameters random,
   meshCastShadow, sceneAddMesh]

/-- The statements one call of `generateMountain` executes from state `s`: the
destroy branch is taken when `mesh !== null` (line 105). -/
def statements (engine : Engine) (parameters : Parameters) (random : ℕ → ℚ) (s : World) :
    List Statement :=
  (if s.mesh ≠ none then destroyOld else []) ++ createNew engine parameters random

/-- Run statements in sequence; a throwing statement aborts the run. -/
def runStatements : List Statement → World → Option World
  | [], s => some s
  | f :: fs, s =>
    match f s with
    | none => none
    | some t => runStatements fs t

/-- The states passed through while running statements in sequence: the start
state and the state after each statement that completes. -/
def traceStatements : List Statement → World → List World
  | [], s => [s]
  | f :: fs, s =>
    match f s with
    | none => [s]
    | some t => s :: traceStatements fs t

/-- The function `generateMountain` of lines 100-153. -/
def generateMountain (engine : Engine) (parameters : Parameters) (random : ℕ → ℚ) (s : World) :
    Option World :=
  runStatements (statements engine parameters random s) s

/-- Every state passed through during one call of `generateMountain`. -/
def generateMountainTrace (engine : Engine) (parameters : Parameters) (random : ℕ → ℚ)
    (s : World) : List World :=
  traceStatements (statements engine parameters random s) s

/-! ## Panel input and runs of the program -/

/-- The children of all three folders: the controllers the user can reach. -/
def panelChildren (s : World) : List ℕ :=
  s.guiMountainsSettings ++ s.guiLights ++ s.guiBackground

/-- User input on controller `c`: when `c` is attached to the panel and bound
to `property` of a material, that field of the material is replaced through
`f`; otherwise nothing the generator reads changes. -/
def editMaterial (c : ℕ) (property : Property)
    (f : MeshStandardMaterial → MeshStandardMaterial) (s : World) : World :=
  if c ∈ panelChildren s then
    match s.controllers[c]? with
    | some ⟨_, .material m, p⟩ =>
      if p = property then
        match s.materials[m]? with
        | some mat => { s with materials := s.materials.set m (f mat) }
        | none => s
      else s
    | _ => s
  else s

/-- What happens between and including calls of `generateMountain`: a call
(line 155, or the `onChange` callbacks of lines 27-41, with the parameter record
as it stands and the draws `Math.random` will return), user input on one of
the three material controllers, or `scene.add(camera)` (line 188). -/
inductive Event where
  | regenerate (parameters : Parameters) (random : ℕ → ℚ)
  | slideDisplacement (c : ℕ) (v : ℚ)
  | pickColor (c : ℕ) (v : ℕ)
  | toggleWireframe (c : ℕ) (v : Bool)
  | addCamera

/-- The effect of one event. -/
def step (engine : Engine) (s : World) : Event → Option World
  | .regenerate parameters random => generateMountain engine parameters random s
  | .slideDisplacement c v =>
    some (editMaterial c .displacementScale (fun mat => { mat with displacementScale := v }) s)
  | .pickColor c v => some (editMaterial c .color (fun mat => { mat with color := v }) s)
  | .toggleWireframe c v =>
    some (editMaterial c .wireframe (fun mat => { mat with wireframe := v }) s)
  | .addCamera => some { s with scene := sceneAdd .camera s.scene }

/-- The effect of a sequence of events. -/
def run (engine : Engine) : List Event → World → Option World
  | [], s => some s
  | e :: es, s =>
    match step engine s e with
    | none => none
    | some t => run engine es t

/-- Number of calls of `generateMountain` in a sequence of events. -/
def calls : List Event → ℕ
  | [] => 0
  | .regenerate _ _ :: es => calls es + 1
  | _ :: es => calls es

/-! ## Observations -/

/-- The position buffer of the geometry held in the module variable `geometry`. -/
def currentPositions (s : World) : Option (List ℚ) :=
  match s.geometry with
  | none => none
  | some g => (s.geometries[g]?).map (·.position)

/-- The material held in the module variable `material`. -/
def currentMaterial (s : World) : Option MeshStandardMaterial :=
  match s.material with
  | none => none
  | some m => s.materials[m]?

/-- The mesh held in the module variable `mesh`. -/
def currentMesh (s : World) : Option Mesh :=
  match s.mesh with
  | none => none
  | some m => s.meshes[m]?

/-- Whether a scene child is a mesh. -/
def SceneNode.isMesh : SceneNode → Bool
  | .mesh _ => true
  | _ => false

/-- The mesh nodes attached to the scene. -/
def attachedMeshes (s : World) : List SceneNode :=
  s.scene.filter SceneNode.isMesh

/-- The geometries on which `dispose()` has not been called. -/
def liveGeometries (s : World) : List BufferGeometry :=
  s.geometries.filter fun g => !g.disposed

/-- The materials on which `dispose()` has not been called. -/
def liveMaterials (s : World) : List MeshStandardMaterial :=
  s.materials.filter fun m => !m.disposed

/-- Whether controller `c` is bound to a material, that is, was created by
`generateMountain` (lines 135-137 are the only bindings to a material). -/
def boundToMaterial (s : World) (c : ℕ) : Bool :=
  match s.controllers[c]? with
  | some ⟨_, .material _, _⟩ => true
  | _ => false

/-- The live panel bindings created by `generateMountain`: the controllers
attached to a folder and bound to a material. -/
def liveBindings (s : World) : List ℕ :=
  (panelChildren s).filter (boundToMaterial s)

/-! ## Invariants -/

/-- The three controllers a call creates when the new material is `m`
(lines 135-137), in creation order. -/
def materialControllers (m : ℕ) : List Controller :=
  [ ⟨.guiMountainsSettings, .material m, .displacementScale⟩,
    ⟨.guiMountainsSettings, .material m, .color⟩,
    ⟨.guiBackground, .material m, .wireframe⟩ ]

/-- The shape of a state in which `k` meshes have been created and every one of
them has been released: all `k` geometries and materials are disposed, the
panel holds the static controllers only and no mesh is attached to the scene.
The module variables are not constrained. -/
structure Cleared (k : ℕ) (s : World) : Prop where
  geometries : s.geometries.map (·.disposed) = List.replicate k true
  materials : s.materials.map (·.disposed) = List.replicate k true
  meshes : s.meshes.length = k
  controllers : ∃ old : List Controller, old.length = 3 * k ∧
    s.controllers = staticControllers ++ old
  guiMountainsSettings : s.guiMountainsSettings = ([0, 1, 2, 3, 4] : List ℕ)
  guiLights : s.guiLights = ([6, 7, 8, 9] : List ℕ)
  guiBackground : s.guiBackground = ([5] : List ℕ)
  scene : attachedMeshes s = []

/-- The shape of a state after `n + 1` calls of `generateMountain`: the module
variables hold the objects of the last call (index `n` in each heap, the last
three controllers), these are live, and everything older is released. -/
structure Live (n : ℕ) (s : World) : Prop where
  geometry : s.geometry = some n
  material : s.material = some n
  mesh : s.mesh = some n
  changeDisplacement : s.changeDisplacement = some (10 + 3 * n : ℕ)
  changeColor : s.changeColor = some (11 + 3 * n : ℕ)
  changeWireframe : s.changeWireframe = some (12 + 3 * n : ℕ)
  geometries : s.geometries.map (·.disposed) = List.replicate n true ++ [false]
  materials : s.materials.map (·.disposed) = List.replicate n true ++ [false]
  meshes : s.meshes.length = n + 1
  meshObject : s.meshes[n]? = some (Mesh.mk n n true)
  controllers : ∃ old : List Controller, old.length = 3 * n ∧
    s.controllers = staticControllers ++ old ++ materialControllers n
  guiMountainsSettings : s.guiMountainsSettings = ([0, 1, 2, 3, 4, 10 + 3 * n, 11 + 3 * n] : List ℕ)
  guiLights : s.guiLights = ([6, 7, 8, 9] : List ℕ)
  guiBackground : s.guiBackground = ([5, 12 + 3 * n] : List ℕ)
  scene : attachedMeshes s = [.mesh n]

/-- The shape of the state after `c` calls of `generateMountain` (with any
panel input in between): before the first call nothing has been created; after
`n + 1` calls the state is `Live n`. -/
def Shape : ℕ → World → Prop
  | 0, s => s.mesh = none ∧ Cleared 0 s
  | n + 1, s => Live n s

/-- Number of objects created so far (geometries, materials, meshes and
controllers). -/
def allocated (s : World) : ℕ :=
  s.geometries.length + s.materials.length + s.meshes.length + s.controllers.length

/-- In state `t` the oldest objects are released: the first `geometries`
geometries and the first `materials` materials are disposed, no live material
binding has a handle below `controllers`, and no mesh below `meshes` is
attached to the scene. -/
def ReleasedBelow (geometries materials controllers meshes : ℕ) (t : World) : Prop :=
  (∀ g ∈ t.geometries.take geometries, g.disposed = true) ∧
  (∀ m ∈ t.materials.take materials, m.disposed = true) ∧
  (∀ c ∈ liveBindings t, controllers ≤ c) ∧
  (∀ m ∈ List.range meshes, SceneNode.mesh m ∉ t.scene)

/-- In state `t` every geometry, material, material binding and mesh that
existed in state `s` is released. -/
def ReleasedSince (s t : World) : Prop :=
  ReleasedBelow s.geometries.length s.materials.length s.controllers.length s.meshes.length t

/-- Number of vertices of the geometry held in `geometry`: three buffer
entries per vertex. -/
def vertexCount (s : World) : Option ℕ :=
  (currentPositions s).map fun buffer => buffer.length / 3

/-- The Y component of vertex `k` of the geometry held in `geometry`: buffer
index `3 * k + 1`. -/
def vertexY (s : World) (k : ℕ) : Option ℚ :=
  match currentPositions s with
  | none => none
  | some buffer => buffer[3 * k + 1]?

/-! ## Sample inputs -/

/-- A tilt close to the engine's values: `cos (-π/2 + 0.5) ≈ 0.479`,
`sin (-π/2 + 0.5) ≈ -0.878`. -/
def sampleTilt : Tilt := ⟨479 / 1000, -878 / 1000⟩

/-- The specified engine at the sample tilt. -/
def sampleEngine : Engine := specEngine sampleTilt

/-- A sequence of draws in `[0, 1)`: 1/2, 1/4, 1/8, … -/
def sampleRandom : ℕ → ℚ := fun i => 1 / 2 ^ (i + 1)

/-- A draw close to 1: `1 - 2 ^ (-25) = 0.9999999701976776`, at every call. -/
def highRandom : ℕ → ℚ := fun _ => 1 - 1 / 2 ^ 25

/-- The draw 1/2 at every call. -/
def halfRandom : ℕ → ℚ := fun _ => 1 / 2

/-- The default parameters with the height slider at its minimum
(line 39, `min(0)`). -/
def flatParameters : Parameters := { defaultParameters with mountainHeight := 0 }

/-! ## Helper lemmas on rounding -/

theorem floor_le_roundHalfEven (x : ℚ) : ⌊x⌋ ≤ roundHalfEven x := by
  unfold roundHalfEven
  simp only
  split_ifs <;> omega

theorem roundHalfEven_le_floor_add_one (x : ℚ) : roundHalfEven x ≤ ⌊x⌋ + 1 := by
  unfold roundHalfEven
  simp only
  split_ifs <;> omega

theorem roundHalfEven_intCast (n : ℤ) : roundHalfEven (n : ℚ) = n := by
  unfold roundHalfEven
  simp

theorem roundHalfEven_mono {x y : ℚ} (h : x ≤ y) : roundHalfEven x ≤ roundHalfEven y := by
  rcases lt_or_eq_of_le (Int.floor_mono h) with hlt | heq
  · calc roundHalfEven x ≤ ⌊x⌋ + 1 := roundHalfEven_le_floor_add_one x
      _ ≤ ⌊y⌋ := hlt
      _ ≤ roundHalfEven y := floor_le_roundHalfEven y
  · unfold roundHalfEven
    simp only
    rw [heq]
    have hxy : x - (⌊y⌋ : ℚ) ≤ y - (⌊y⌋ : ℚ) := by linarith
    split_ifs <;> first | omega | (exfalso; linarith)

theorem roundBinary_zero (p : ℕ) (emin : ℤ) : roundBinary p emin 0 = 0 := by
  simp [roundBinary]

theorem roundBinary_nonneg (p : ℕ) (emin : ℤ) {x : ℚ} (hx : 0 ≤ x) :
    0 ≤ roundBinary p emin x := by
  unfold roundBinary
  split
  · exact le_refl _
  · simp only
    have hq : (0 : ℚ) < 2 ^ (max (Int.log 2 |x|) emin - ((p : ℤ) - 1)) := by positivity
    apply mul_nonneg _ hq.le
    have h0 : (0 : ℤ) ≤ roundHalfEven (x / 2 ^ (max (Int.log 2 |x|) emin - ((p : ℤ) - 1))) := by
      calc (0 : ℤ) ≤ ⌊x / 2 ^ (max (Int.log 2 |x|) emin - ((p : ℤ) - 1))⌋ :=
            Int.floor_nonneg.2 (div_nonneg hx hq.le)
        _ ≤ _ := floor_le_roundHalfEven _
    exact_mod_cast h0

/-- Rounding with a fixed quantum is monotone and fixes multiples of the quantum. -/
theorem roundHalfEven_mul_le {x u : ℚ} (hu : 0 < u) (n : ℤ) (h : x ≤ n * u) :
    (roundHalfEven (x / u) : ℚ) * u ≤ n * u := by
  have h1 : x / u ≤ (n : ℚ) := by rwa [div_le_iff₀ hu]
  have h2 : roundHalfEven (x / u) ≤ n := by
    have := roundHalfEven_mono h1
    rwa [roundHalfEven_intCast] at this
  have h3 : (roundHalfEven (x / u) : ℚ) ≤ n := by exact_mod_cast h2
  exact mul_le_mul_of_nonneg_right h3 hu.le

theorem le_roundHalfEven_mul {x u : ℚ} (hu : 0 < u) (n : ℤ) (h : n * u ≤ x) :
    (n : ℚ) * u ≤ roundHalfEven (x / u) * u := by
  have h1 : (n : ℚ) ≤ x / u := by rwa [le_div_iff₀ hu]
  have h2 : n ≤ roundHalfEven (x / u) := by
    have := roundHalfEven_mono h1
    rwa [roundHalfEven_intCast] at this
  have h3 : (n : ℚ) ≤ roundHalfEven (x / u) := by exact_mod_cast h2
  exact mul_le_mul_of_nonneg_right h3 hu.le

theorem roundBinary_mono_pos (p : ℕ) (hp : 1 ≤ p) (emin : ℤ) {a b : ℚ} (ha : 0 < a)
    (hab : a ≤ b) : roundBinary p emin a ≤ roundBinary p emin b := by
  have hb : 0 < b := lt_of_lt_of_le ha hab
  unfold roundBinary
  rw [if_neg ha.ne', if_neg hb.ne']
  simp only [abs_of_pos ha, abs_of_pos hb]
  have hlog : Int.log 2 a ≤ Int.log 2 b := Int.log_mono_right ha hab
  have hle : max (Int.log 2 a) emin ≤ max (Int.log 2 b) emin := max_le_max hlog (le_refl _)
  rcases eq_or_lt_of_le hle with heq | hlt
  · rw [heq]
    have hq : (0 : ℚ) < 2 ^ (max (Int.log 2 b) emin - ((p : ℤ) - 1)) := by positivity
    have h1 : a / 2 ^ (max (Int.log 2 b) emin - ((p : ℤ) - 1)) ≤
        b / 2 ^ (max (Int.log 2 b) emin - ((p : ℤ) - 1)) := div_le_div_of_nonneg_right hab hq.le
    have h2 := roundHalfEven_mono h1
    have h3 : (roundHalfEven (a / 2 ^ (max (Int.log 2 b) emin - ((p : ℤ) - 1))) : ℚ) ≤
        roundHalfEven (b / 2 ^ (max (Int.log 2 b) emin - ((p : ℤ) - 1))) := by exact_mod_cast h2
    exact mul_le_mul_of_nonneg_right h3 hq.le
  · -- different binades: a power of two lies in between
    set ea := max (Int.log 2 a) emin with hea
    set eb := max (Int.log 2 b) emin with heb
    have heb' : eb = Int.log 2 b := by
      rcases le_total (Int.log 2 b) emin with h | h
      · exfalso
        have : eb = emin := max_eq_right h
        have : emin ≤ ea := le_max_right _ _
        omega
      · exact max_eq_left h
    have hqa : (0 : ℚ) < 2 ^ (ea - ((p : ℤ) - 1)) := by positivity
    have hqb : (0 : ℚ) < 2 ^ (eb - ((p : ℤ) - 1)) := by positivity
    have h2 : (2 : ℚ) ≠ 0 := by norm_num
    -- a < 2 ^ (ea + 1)
    have ha1 : a ≤ (2 : ℚ) ^ (ea + 1) := by
      have h := Int.lt_zpow_succ_log_self (R := ℚ) (b := 2) (by norm_num) a
      have h' : ((2 : ℕ) : ℚ) ^ (Int.log 2 a + 1) ≤ (2 : ℚ) ^ (ea + 1) := by
        simp only [Nat.cast_ofNat]
        apply zpow_le_zpow_right₀ (by norm_num)
        have : Int.log 2 a ≤ ea := le_max_left _ _
        omega
      exact le_of_lt (lt_of_lt_of_le h h')
    have hb1 : (2 : ℚ) ^ eb ≤ b := by
      have h := Int.zpow_log_le_self (R := ℚ) (b := 2) (by norm_num) hb
      rw [heb']
      simpa using h
    -- 2 ^ (ea + 1) = 2 ^ p * quantum_a
    have hka : (2 : ℚ) ^ (ea + 1) = ((2 ^ p : ℤ) : ℚ) * 2 ^ (ea - ((p : ℤ) - 1)) := by
      push_cast
      rw [← zpow_natCast, ← zpow_add₀ h2]
      congr 1
      omega
    have hkb : (2 : ℚ) ^ eb = ((2 ^ (p - 1) : ℤ) : ℚ) * 2 ^ (eb - ((p : ℤ) - 1)) := by
      push_cast
      rw [← zpow_natCast, ← zpow_add₀ h2]
      congr 1
      have : ((p - 1 : ℕ) : ℤ) = (p : ℤ) - 1 := by omega
      omega
    calc (roundHalfEven (a / 2 ^ (ea - ((p : ℤ) - 1))) : ℚ) * 2 ^ (ea - ((p : ℤ) - 1))
        ≤ ((2 ^ p : ℤ) : ℚ) * 2 ^ (ea - ((p : ℤ) - 1)) :=
          roundHalfEven_mul_le hqa _ (by rw [← hka]; exact ha1)
      _ = (2 : ℚ) ^ (ea + 1) := hka.symm
      _ ≤ (2 : ℚ) ^ eb := zpow_le_zpow_right₀ (by norm_num) (by omega)
      _ = ((2 ^ (p - 1) : ℤ) : ℚ) * 2 ^ (eb - ((p : ℤ) - 1)) := hkb
      _ ≤ roundHalfEven (b / 2 ^ (eb - ((p : ℤ) - 1))) * 2 ^ (eb - ((p : ℤ) - 1)) :=
          le_roundHalfEven_mul hqb _ (by rw [← hkb]; exact hb1)

theorem roundBinary_mono_nonneg (p : ℕ) (hp : 1 ≤ p) (emin : ℤ) {a b : ℚ} (ha : 0 ≤ a)
    (hab : a ≤ b) : roundBinary p emin a ≤ roundBinary p emin b := by
  rcases eq_or_lt_of_le ha with h0 | hpos
  · rw [← h0, roundBinary_zero]
    exact roundBinary_nonneg p emin (le_trans ha hab)
  · exact roundBinary_mono_pos p hp emin hpos hab

theorem roundHalfEven_eq_of_abs_sub_lt (x : ℚ) (n : ℤ) (h : |x - n| < 1 / 2) :
    roundHalfEven x = n := by
  obtain ⟨h1, h2⟩ := abs_lt.1 h
  unfold roundHalfEven
  simp only
  rcases le_or_lt (n : ℚ) x with hle | hlt
  · have hf : ⌊x⌋ = n := Int.floor_eq_iff.2 ⟨hle, by linarith⟩
    rw [hf, if_pos (by linarith)]
  · have hf : ⌊x⌋ = n - 1 := Int.floor_eq_iff.2 ⟨by push_cast; linarith, by push_cast; linarith⟩
    rw [hf, if_neg (by push_cast; linarith), if_pos (by push_cast; linarith)]
    omega

/-- Evaluation of a rounding from the binade of the argument and the nearest
multiple of the quantum. -/
theorem roundBinary_eq_of_bounds (p : ℕ) (emin : ℤ) (x : ℚ) (e n : ℤ) (hx : 0 < x)
    (h1 : (2 : ℚ) ^ e ≤ x) (h2 : x < (2 : ℚ) ^ (e + 1)) (he : emin ≤ e)
    (hn : |x / 2 ^ (e - ((p : ℤ) - 1)) - n| < 1 / 2) :
    roundBinary p emin x = n * 2 ^ (e - ((p : ℤ) - 1)) := by
  have hlog : Int.log 2 x = e := by
    have a1 : e ≤ Int.log 2 x := by
      rw [← Int.zpow_le_iff_le_log (by norm_num) hx]
      simpa using h1
    have a2 : Int.log 2 x < e + 1 := by
      rw [← Int.lt_zpow_iff_log_lt (by norm_num) hx]
      simpa using h2
    omega
  unfold roundBinary
  rw [if_neg hx.ne']
  simp only [abs_of_pos hx, hlog, max_eq_left he]
  rw [roundHalfEven_eq_of_abs_sub_lt _ n hn]

theorem roundDouble_31_100 :
    roundDouble (31 / 100) = 5584463537939415 / 18014398509481984 := by
  unfold roundDouble
  rw [roundBinary_eq_of_bounds 53 (-1022) (31 / 100) (-2) 5584463537939415 (by norm_num)
    (by norm_num) (by norm_num) (by norm_num) (by norm_num [abs_lt])]
  norm_num


/-- The double product of the draw 1/2 and the default height is exact. -/
theorem roundDouble_half_default :
    roundDouble (1 / 2 * roundDouble (31 / 100)) = 5584463537939415 / 36028797018963968 := by
  rw [roundDouble_31_100]
  unfold roundDouble
  rw [roundBinary_eq_of_bounds 53 (-1022) _ (-3) 5584463537939415 (by norm_num)
    (by norm_num) (by norm_num) (by norm_num) (by norm_num [abs_lt])]
  norm_num

theorem fround_half_default :
    fround (5584463537939415 / 36028797018963968) = 5200937 / 33554432 := by
  unfold fround
  rw [roundBinary_eq_of_bounds 24 (-126) _ (-3) 10401874 (by norm_num)
    (by norm_num) (by norm_num) (by norm_num) (by norm_num [abs_lt])]
  norm_num

theorem roundDouble_high_default :
    roundDouble ((1 - 1 / 2 ^ 25) * roundDouble (31 / 100)) =
      698057921438679 / 2251799813685248 := by
  rw [roundDouble_31_100]
  unfold roundDouble
  rw [roundBinary_eq_of_bounds 53 (-1022) _ (-2) 5584463371509432 (by norm_num)
    (by norm_num) (by norm_num) (by norm_num) (by norm_num [abs_lt])]
  norm_num

theorem fround_high_default :
    fround (698057921438679 / 2251799813685248) = 5200937 / 16777216 := by
  unfold fround
  rw [roundBinary_eq_of_bounds 24 (-126) _ (-2) 10401874 (by norm_num)
    (by norm_num) (by norm_num) (by norm_num) (by norm_num [abs_lt])]
  norm_num

theorem roundDouble_default_idem :
    roundDouble (roundDouble (31 / 100)) = 5584463537939415 / 18014398509481984 := by
  rw [roundDouble_31_100]
  unfold roundDouble
  rw [roundBinary_eq_of_bounds 53 (-1022) _ (-2) 5584463537939415 (by norm_num)
    (by norm_num) (by norm_num) (by norm_num) (by norm_num [abs_lt])]
  norm_num

theorem fround_default :
    fround (5584463537939415 / 18014398509481984) = 5200937 / 16777216 := by
  unfold fround
  rw [roundBinary_eq_of_bounds 24 (-126) _ (-2) 10401874 (by norm_num)
    (by norm_num) (by norm_num) (by norm_num) (by norm_num [abs_lt])]
  norm_num


theorem roundDouble_zero : roundDouble 0 = 0 := roundBinary_zero _ _

theorem fround_zero : fround 0 = 0 := roundBinary_zero _ _

theorem roundDouble_nonneg {x : ℚ} (hx : 0 ≤ x) : 0 ≤ roundDouble x :=
  roundBinary_nonneg _ _ hx

theorem fround_nonneg {x : ℚ} (hx : 0 ≤ x) : 0 ≤ fround x :=
  roundBinary_nonneg _ _ hx

theorem roundDouble_mono {a b : ℚ} (ha : 0 ≤ a) (hab : a ≤ b) : roundDouble a ≤ roundDouble b :=
  roundBinary_mono_nonneg 53 (by decide) _ ha hab

theorem fround_mono {a b : ℚ} (ha : 0 ≤ a) (hab : a ≤ b) : fround a ≤ fround b :=
  roundBinary_mono_nonneg 24 (by decide) _ ha hab

/-! ## Helper lemmas on the height loop -/

theorem typedArraySet_length (v : List ℚ) (i : ℕ) (x : ℚ) :
    (typedArraySet v i x).length = v.length := by
  unfold typedArraySet
  split <;> simp

theorem typedArraySet_eq_set (v : List ℚ) (i : ℕ) (x : ℚ) :
    typedArraySet v i x = v.set i (fround x) := by
  unfold typedArraySet
  split
  · rfl
  · rw [List.set_eq_of_length_le (by omega)]

/-- The state after the first `m` iterations of the loop body: `m` draws have
been made, the buffer has its length, every in-range slot `3k + 1` with `k < m`
holds the rounded product of draw `k`, every other slot is untouched. -/
theorem foldl_body_state (mh : ℚ) (random : ℕ → ℚ) (v : List ℚ) (m : ℕ) :
    ((List.range m).foldl (heightLoopBody mh random) ⟨v, 0⟩).draws = m ∧
    ((List.range m).foldl (heightLoopBody mh random) ⟨v, 0⟩).vertices.length = v.length ∧
    ∀ j, ((List.range m).foldl (heightLoopBody mh random) ⟨v, 0⟩).vertices[j]? =
      if j % 3 = 1 ∧ j / 3 < m ∧ j < v.length
      then some (fround (roundDouble (random (j / 3) * mh))) else v[j]? := by
  induction m with
  | zero => simp
  | succ m ih =>
    obtain ⟨hd, hl, hv⟩ := ih
    rw [List.range_succ, List.foldl_append]
    simp only [List.foldl_cons, List.foldl_nil]
    refine ⟨?_, ?_, ?_⟩
    · simp only [heightLoopBody, hd]
    · simp only [heightLoopBody, typedArraySet_length, hl]
    · intro j
      simp only [heightLoopBody]
      rw [typedArraySet_eq_set, List.getElem?_set, hv, hl, hd]
      by_cases h1 : m * 3 + 1 = j
      · have hj3 : j / 3 = m := by omega
        have hjm : j % 3 = 1 := by omega
        simp only [h1, hj3, hjm, true_and, if_true]
        by_cases hlen : j < v.length
        · simp [hlen]
        · have hn : v[j]? = none := List.getElem?_eq_none (by omega)
          simp [hlen, hn]
      · simp only [h1, if_false]
        by_cases hc : j % 3 = 1 ∧ j / 3 < m ∧ j < v.length
        · have : j % 3 = 1 ∧ j / 3 < m + 1 ∧ j < v.length := ⟨hc.1, by omega, hc.2.2⟩
          simp [hc, this]
        · have : ¬ (j % 3 = 1 ∧ j / 3 < m + 1 ∧ j < v.length) := by
            rintro ⟨a, b, c⟩
            apply hc
            refine ⟨a, ?_, c⟩
            omega
          simp [hc, this]

theorem heightLoop_length (mh : ℚ) (random : ℕ → ℚ) (v : List ℚ) :
    (heightLoop mh random v).length = v.length :=
  (foldl_body_state mh random v (v.length + 1)).2.1

theorem heightLoopDraws_eq (mh : ℚ) (random : ℕ → ℚ) (v : List ℚ) :
    heightLoopDraws mh random v = v.length + 1 :=
  (foldl_body_state mh random v (v.length + 1)).1

theorem hardenedLoopDraws_eq (mh : ℚ) (random : ℕ → ℚ) (v : List ℚ) :
    hardenedLoopDraws mh random v = v.length / 3 :=
  (foldl_body_state mh random v (v.length / 3)).1

/-- Reading the buffer after the whole loop: every in-range slot `3k + 1` holds
the product of draw `k` and the height, rounded to double and then to single
precision; every other slot is untouched. -/
theorem heightLoop_getElem? (mh : ℚ) (random : ℕ → ℚ) (v : List ℚ) (j : ℕ) :
    (heightLoop mh random v)[j]? =
      if j % 3 = 1 ∧ j < v.length
      then some (fround (roundDouble (random (j / 3) * mh))) else v[j]? := by
  unfold heightLoop heightLoopRun
  rw [(foldl_body_state mh random v (v.length + 1)).2.2]
  by_cases h : j % 3 = 1 ∧ j < v.length
  · have : j % 3 = 1 ∧ j / 3 < v.length + 1 ∧ j < v.length := ⟨h.1, by omega, h.2⟩
    simp [h, this]
  · have : ¬ (j % 3 = 1 ∧ j / 3 < v.length + 1 ∧ j < v.length) := by
      rintro ⟨a, _, c⟩
      exact h ⟨a, c⟩
    simp [h, this]

theorem hardenedLoop_getElem? (mh : ℚ) (random : ℕ → ℚ) (v : List ℚ) (j : ℕ) :
    (hardenedLoop mh random v)[j]? =
      if j % 3 = 1 ∧ j + 2 < v.length / 3 * 3 + 3 ∧ j < v.length
      then some (fround (roundDouble (random (j / 3) * mh))) else v[j]? := by
  unfold hardenedLoop hardenedLoopRun
  rw [(foldl_body_state mh random v (v.length / 3)).2.2]
  by_cases h : j % 3 = 1 ∧ j / 3 < v.length / 3 ∧ j < v.length
  · have : j % 3 = 1 ∧ j + 2 < v.length / 3 * 3 + 3 ∧ j < v.length :=
      ⟨h.1, by omega, h.2.2⟩
    simp only [h, this, and_self, if_true]
  · have : ¬ (j % 3 = 1 ∧ j + 2 < v.length / 3 * 3 + 3 ∧ j < v.length) := by
      rintro ⟨a, b, c⟩
      apply h
      refine ⟨a, ?_, c⟩
      omega
    simp only [h, this, if_false]

/-- An iteration whose target index is past the end leaves the buffer as it is. -/
theorem heightLoopBody_out_of_range (mh : ℚ) (random : ℕ → ℚ) (st : LoopState) (i : ℕ)
    (h : st.vertices.length ≤ i * 3 + 1) :
    (heightLoopBody mh random st i).vertices = st.vertices := by
  unfold heightLoopBody typedArraySet
  simp only
  rw [if_neg (by omega)]

/-! ## Helper lemmas on the state machine -/

theorem getElem?_last3 {α : Type} (pre : List α) (a b c : α) (m : ℕ) (h : pre.length = m) :
    (pre ++ [a, b, c])[m]? = some a ∧ (pre ++ [a, b, c])[m + 1]? = some b ∧
    (pre ++ [a, b, c])[m + 2]? = some c := by
  subst h
  refine ⟨?_, ?_, ?_⟩
  · rw [List.getElem?_append_right (le_refl _)]; simp
  · rw [List.getElem?_append_right (by omega)]; simp
  · rw [List.getElem?_append_right (by omega)]; simp

theorem map_disposed_set_last {α : Type} (l : List α) (d : α → Bool) (n : ℕ) (x : α)
    (h : l.map d = List.replicate n true ++ [false]) (hx : d x = true) :
    (l.set n x).map d = List.replicate (n + 1) true := by
  rw [List.map_set, h, hx, List.set_append]
  simp [List.replicate_succ']

theorem live_lookup_last {α : Type} (l : List α) (d : α → Bool) (n : ℕ)
    (h : l.map d = List.replicate n true ++ [false]) : ∃ x, l[n]? = some x ∧ d x = false := by
  have hlen : l.length = n + 1 := by
    have := congrArg List.length h
    simpa using this
  have hn : n < l.length := by omega
  refine ⟨l[n], List.getElem?_eq_getElem hn, ?_⟩
  have := congrArg (fun m => m[n]?) h
  simp [List.getElem?_append_right, hn] at this
  exact this


theorem live_controllers_lookup (n : ℕ) (s : World) (h : Live n s) :
    s.controllers[10 + 3 * n]? = some ⟨.guiMountainsSettings, .material n, .displacementScale⟩ ∧
    s.controllers[11 + 3 * n]? = some ⟨.guiMountainsSettings, .material n, .color⟩ ∧
    s.controllers[12 + 3 * n]? = some ⟨.guiBackground, .material n, .wireframe⟩ := by
  obtain ⟨old, hold, hc⟩ := h.controllers
  have hl := getElem?_last3 (staticControllers ++ old)
    ⟨.guiMountainsSettings, .material n, .displacementScale⟩
    ⟨.guiMountainsSettings, .material n, .color⟩
    ⟨.guiBackground, .material n, .wireframe⟩ (10 + 3 * n)
    (by simp [staticControllers, hold]; omega)
  rw [hc, materialControllers]
  have e1 : 11 + 3 * n = 10 + 3 * n + 1 := by omega
  have e2 : 12 + 3 * n = 10 + 3 * n + 2 := by omega
  rw [e1, e2]
  exact hl

theorem erase_last_of_seven (a b : ℕ) (ha : 4 < a) (hb : a < b) :
    [0, 1, 2, 3, 4, a, b].erase b = [0, 1, 2, 3, 4, a] ∧
    [0, 1, 2, 3, 4, a].erase a = [0, 1, 2, 3, 4] := by
  have h0 : (0 : ℕ) ≠ b := by omega
  have h1 : (1 : ℕ) ≠ b := by omega
  have h2 : (2 : ℕ) ≠ b := by omega
  have h3 : (3 : ℕ) ≠ b := by omega
  have h4 : (4 : ℕ) ≠ b := by omega
  have h5 : a ≠ b := by omega
  have g0 : (0 : ℕ) ≠ a := by omega
  have g1 : (1 : ℕ) ≠ a := by omega
  have g2 : (2 : ℕ) ≠ a := by omega
  have g3 : (3 : ℕ) ≠ a := by omega
  have g4 : (4 : ℕ) ≠ a := by omega
  simp [List.erase_cons, h0, h1, h2, h3, h4, h5, g0, g1, g2, g3, g4]

theorem erase_last_of_two (c : ℕ) (hc : 5 < c) : [5, c].erase c = [5] := by
  have h0 : (5 : ℕ) ≠ c := by omega
  simp [List.erase_cons, h0]

theorem destroyOld_live (n : ℕ) (s : World) (h : Live n s) :
    ∃ d, runStatements destroyOld s = some d ∧ Cleared (n + 1) d ∧
      d.geometries.length = s.geometries.length := by
  obtain ⟨g, hg, hgd⟩ := live_lookup_last _ _ _ h.geometries
  obtain ⟨m, hm, hmd⟩ := live_lookup_last _ _ _ h.materials
  obtain ⟨hc0, hc1, hc2⟩ := live_controllers_lookup n s h
  obtain ⟨e1, e2⟩ := erase_last_of_seven (10 + 3 * n) (11 + 3 * n) (by omega) (by omega)
  have e3 := erase_last_of_two (12 + 3 * n) (by omega)
  simp only [runStatements, destroyOld, geometryDispose, materialDispose, changeColorDestroy,
    changeWireframeDestroy, changeDisplacementDestroy, sceneRemoveMesh, controllerDestroy,
    BufferGeometry.dispose, MeshStandardMaterial.dispose, sceneRemove,
    h.geometry, h.material, h.mesh, h.changeColor, h.changeWireframe, h.changeDisplacement,
    hg, hm, hc0, hc1, hc2, h.guiMountainsSettings, h.guiBackground, e1, e2, e3]
  refine ⟨_, rfl, ⟨?_, ?_, ?_, ?_, ?_, ?_, ?_, ?_⟩, ?_⟩
  · exact map_disposed_set_last _ _ _ _ h.geometries rfl
  · exact map_disposed_set_last _ _ _ _ h.materials rfl
  · exact h.meshes
  · obtain ⟨old, hold, hc⟩ := h.controllers
    refine ⟨old ++ materialControllers n, ?_, ?_⟩
    · simp [hold, materialControllers]; omega
    · simp [hc]
  · rfl
  · exact h.guiLights
  · rfl
  · show List.filter SceneNode.isMesh (s.scene.erase (SceneNode.mesh n)) = []
    rw [← List.erase_filter]
    have := h.scene
    unfold attachedMeshes at this
    rw [this]
    simp
  · simp

theorem set_concat_length {α : Type} (l : List α) (a b : α) :
    (l ++ [a]).set l.length b = l ++ [b] := by
  rw [List.set_append]
  simp

theorem createNew_cleared (engine : Engine) (parameters : Parameters) (random : ℕ → ℚ)
    (k : ℕ) (d : World) (h : Cleared k d) :
    ∃ s, runStatements (createNew engine parameters random) d = some s ∧ Live k s ∧
      currentPositions s = some (heightLoop parameters.mountainHeight random
        (engine.rotateX (engine.planeGeometry parameters.planeWidth
          parameters.planeHeight parameters.segmentsWidth parameters.segmentsHeight))) ∧
      currentMaterial s = some newMaterial := by
  have hg : d.geometries.length = k := by
    have := congrArg List.length h.geometries
    simpa using this
  have hm : d.materials.length = k := by
    have := congrArg List.length h.materials
    simpa using this
  obtain ⟨old, hold, hc⟩ := h.controllers
  have hcl : d.controllers.length = 10 + 3 * k := by
    simp [hc, staticControllers, hold]; omega
  simp only [runStatements, createNew, newPlaneGeometry, newMeshStandardMaterial, addDisplacement,
    addColor, addWireframe, newMesh, geometryRotateX, displaceVertices, meshCastShadow,
    sceneAddMesh, sceneAdd, guiAdd, List.getElem?_concat_length, set_concat_length, List.length_append,
    List.length_singleton, List.append_assoc, List.singleton_append]
  have hsc : attachedMeshes d = [] := h.scene
  unfold attachedMeshes at hsc
  refine ⟨_, rfl, ⟨?_, ?_, ?_, ?_, ?_, ?_, ?_, ?_, ?_, ?_, ?_, ?_, ?_, ?_, ?_⟩, ?_, ?_⟩
  · simp [hg]
  · simp [hm]
  · simp [h.meshes]
  · simp [hcl]
  · simp [hcl]; omega
  · simp [hcl]; omega
  · simp [h.geometries]
  · simp [h.materials, newMaterial]
  · simp [h.meshes]
  · simp only [hg, hm]
    rw [← h.meshes, List.getElem?_concat_length]
  · refine ⟨old, hold, ?_⟩
    simp [hc, hm, materialControllers]
  · simp [h.guiMountainsSettings, hcl]; omega
  · exact h.guiLights
  · simp [h.guiBackground, hcl]; omega
  · show List.filter SceneNode.isMesh (d.scene.erase (SceneNode.mesh d.meshes.length) ++
      [SceneNode.mesh d.meshes.length]) = [SceneNode.mesh k]
    rw [List.filter_append, ← List.erase_filter, hsc, h.meshes]
    simp [SceneNode.isMesh]
  · simp [currentPositions]
  · simp [currentMaterial]
theorem runStatements_append (a b : List Statement) (s : World) :
    runStatements (a ++ b) s =
      match runStatements a s with
      | none => none
      | some d => runStatements b d := by
  induction a generalizing s with
  | nil => rfl
  | cons f fs ih =>
    simp only [List.cons_append, runStatements]
    cases f s with
    | none => rfl
    | some t => exact ih t

theorem generateMountain_shape (engine : Engine) (parameters : Parameters) (random : ℕ → ℚ)
    (c : ℕ) (s : World) (h : Shape c s) :
    ∃ t, generateMountain engine parameters random s = some t ∧ Live c t ∧
      currentPositions t = some (heightLoop parameters.mountainHeight random
        (engine.rotateX (engine.planeGeometry parameters.planeWidth
          parameters.planeHeight parameters.segmentsWidth parameters.segmentsHeight))) ∧
      currentMaterial t = some newMaterial := by
  cases c with
  | zero =>
    obtain ⟨hm, hc⟩ := h
    unfold generateMountain statements
    simp only [hm, ne_eq, not_true_eq_false, if_false, List.nil_append]
    exact createNew_cleared engine parameters random 0 s hc
  | succ n =>
    have hl : Live n s := h
    obtain ⟨d, hd, hcl, _⟩ := destroyOld_live n s hl
    unfold generateMountain statements
    simp only [hl.mesh, ne_eq, reduceCtorEq, not_false_eq_true, if_true]
    rw [runStatements_append, hd]
    exact createNew_cleared engine parameters random (n + 1) d hcl

theorem map_set_same {α : Type} (l : List α) (d : α → Bool) (i : ℕ) (x y : α)
    (hx : l[i]? = some x) (hy : d y = d x) : (l.set i y).map d = l.map d := by
  apply List.ext_getElem?
  intro j
  rw [List.map_set, List.getElem?_set]
  by_cases hij : i = j
  · subst hij
    have hi : i < l.length := by
      by_contra hcon
      rw [List.getElem?_eq_none (by omega)] at hx
      cases hx
    have hxe : l[i] = x := by
      have := List.getElem?_eq_getElem hi
      rw [this] at hx
      exact Option.some.inj hx
    simp [hi, hxe, hy]
  · simp [hij]

theorem editMaterial_shape (c : ℕ) (property : Property)
    (f : MeshStandardMaterial → MeshStandardMaterial) (hf : ∀ mat, (f mat).disposed = mat.disposed)
    (k : ℕ) (s : World) (h : Shape k s) : Shape k (editMaterial c property f s) := by
  unfold editMaterial
  split
  · split
    · split
      · split
        · rename_i _ _ _ m _ _ _ _ mat hmat
          have hmap : (s.materials.set m (f mat)).map (·.disposed) = s.materials.map (·.disposed) :=
            map_set_same _ _ _ _ _ hmat (hf mat)
          cases k with
          | zero =>
            obtain ⟨h1, h2⟩ := h
            exact ⟨h1, ⟨h2.geometries, by rw [hmap]; exact h2.materials, h2.meshes, h2.controllers,
              h2.guiMountainsSettings, h2.guiLights, h2.guiBackground, h2.scene⟩⟩
          | succ n =>
            have hl : Live n s := h
            exact ⟨hl.geometry, hl.material, hl.mesh, hl.changeDisplacement, hl.changeColor,
              hl.changeWireframe, hl.geometries, by rw [hmap]; exact hl.materials, hl.meshes,
              hl.meshObject, hl.controllers, hl.guiMountainsSettings, hl.guiLights,
              hl.guiBackground, hl.scene⟩
        · exact h
      · exact h
    · exact h
  · exact h

theorem addCamera_shape (k : ℕ) (s : World) (h : Shape k s) :
    Shape k { s with scene := sceneAdd SceneNode.camera s.scene } := by
  unfold sceneAdd
  have hs : ∀ l : List SceneNode,
      (l.erase SceneNode.camera ++ [SceneNode.camera]).filter SceneNode.isMesh =
      l.filter SceneNode.isMesh := by
    intro l
    rw [List.filter_append, ← List.erase_filter]
    have : SceneNode.camera ∉ l.filter SceneNode.isMesh := by
      simp [SceneNode.isMesh]
    rw [List.erase_of_not_mem this]
    simp [SceneNode.isMesh]
  cases k with
  | zero =>
    obtain ⟨h1, h2⟩ := h
    exact ⟨h1, ⟨h2.geometries, h2.materials, h2.meshes, h2.controllers,
      h2.guiMountainsSettings, h2.guiLights, h2.guiBackground, (hs _).trans h2.scene⟩⟩
  | succ n =>
    have hl : Live n s := h
    exact ⟨hl.geometry, hl.material, hl.mesh, hl.changeDisplacement, hl.changeColor,
      hl.changeWireframe, hl.geometries, hl.materials, hl.meshes,
      hl.meshObject, hl.controllers, hl.guiMountainsSettings, hl.guiLights,
      hl.guiBackground, (hs _).trans hl.scene⟩

theorem initial_shape : Shape 0 initial := by
  refine ⟨rfl, ⟨rfl, rfl, rfl, ⟨[], rfl, rfl⟩, rfl, rfl, rfl, rfl⟩⟩

theorem run_shape (engine : Engine) (evs : List Event) (k : ℕ) (s : World) (h : Shape k s) :
    ∃ t, run engine evs s = some t ∧ Shape (k + calls evs) t := by
  induction evs generalizing k s with
  | nil => exact ⟨s, rfl, h⟩
  | cons e es ih =>
    cases e with
    | regenerate parameters random =>
      obtain ⟨t, ht, hl, _⟩ := generateMountain_shape engine parameters random k s h
      obtain ⟨u, hu, hs⟩ := ih (k + 1) t hl
      refine ⟨u, ?_, ?_⟩
      · simp only [run, step, ht]
        exact hu
      · have : k + calls (Event.regenerate parameters random :: es) = k + 1 + calls es := by
          simp only [calls]; omega
        rw [this]
        exact hs
    | slideDisplacement c v =>
      obtain ⟨u, hu, hs⟩ := ih k _ (editMaterial_shape c .displacementScale
        (fun mat => { mat with displacementScale := v }) (fun _ => rfl) k s h)
      exact ⟨u, by simp only [run, step]; exact hu, hs⟩
    | pickColor c v =>
      obtain ⟨u, hu, hs⟩ := ih k _ (editMaterial_shape c .color
        (fun mat => { mat with color := v }) (fun _ => rfl) k s h)
      exact ⟨u, by simp only [run, step]; exact hu, hs⟩
    | toggleWireframe c v =>
      obtain ⟨u, hu, hs⟩ := ih k _ (editMaterial_shape c .wireframe
        (fun mat => { mat with wireframe := v }) (fun _ => rfl) k s h)
      exact ⟨u, by simp only [run, step]; exact hu, hs⟩
    | addCamera =>
      obtain ⟨u, hu, hs⟩ := ih k _ (addCamera_shape k s h)
      exact ⟨u, by simp only [run, step]; exact hu, hs⟩

theorem all_disposed_of_replicate {α : Type} (l : List α) (d : α → Bool) (k : ℕ)
    (h : l.map d = List.replicate k true) : ∀ x ∈ l, d x = true := by
  intro x hx
  have : d x ∈ l.map d := List.mem_map_of_mem d hx
  rw [h] at this
  exact (List.mem_replicate.1 this).2

theorem static_not_bound (t : World) (rest : List Controller)
    (hc : t.controllers = staticControllers ++ rest) (c : ℕ) (h : c < 10) :
    boundToMaterial t c = false := by
  unfold boundToMaterial
  rw [hc, List.getElem?_append_left (by simpa [staticControllers] using h)]
  interval_cases c <;> simp [staticControllers]

theorem liveBindings_ge (t : World) (rest : List Controller) (nc : ℕ)
    (hc : t.controllers = staticControllers ++ rest)
    (hch : ∀ c ∈ panelChildren t, c < 10 ∨ nc ≤ c) : ∀ c ∈ liveBindings t, nc ≤ c := by
  intro c hcm
  unfold liveBindings at hcm
  obtain ⟨h1, h2⟩ := List.mem_filter.1 hcm
  rcases hch c h1 with h | h
  · rw [static_not_bound t rest hc c h] at h2
    cases h2
  · exact h

theorem not_mem_scene_of_attached_nil (t : World) (h : attachedMeshes t = []) (m : ℕ) :
    SceneNode.mesh m ∉ t.scene := by
  intro hm
  have : SceneNode.mesh m ∈ attachedMeshes t := List.mem_filter.2 ⟨hm, rfl⟩
  rw [h] at this
  cases this

theorem created_state_released (k : ℕ) (d : World) (h : Cleared k d) (t : World)
    (hG : ∃ E, t.geometries = d.geometries ++ E)
    (hM : ∃ E, t.materials = d.materials ++ E)
    (hC : ∃ E, t.controllers = d.controllers ++ E)
    (hMS : ∃ E, t.guiMountainsSettings = d.guiMountainsSettings ++ E ∧
      ∀ c ∈ E, d.controllers.length ≤ c)
    (hL : t.guiLights = d.guiLights)
    (hB : ∃ E, t.guiBackground = d.guiBackground ++ E ∧ ∀ c ∈ E, d.controllers.length ≤ c)
    (hS : t.scene = d.scene ∨
      t.scene = d.scene.erase (SceneNode.mesh d.meshes.length) ++
        [SceneNode.mesh d.meshes.length]) :
    (attachedMeshes t).length ≤ 1 ∧ ReleasedBelow k k (10 + 3 * k) k t := by
  have hg : d.geometries.length = k := by
    have := congrArg List.length h.geometries
    simpa using this
  have hm : d.materials.length = k := by
    have := congrArg List.length h.materials
    simpa using this
  obtain ⟨old, hold, hc⟩ := h.controllers
  have hcl : d.controllers.length = 10 + 3 * k := by
    simp [hc, staticControllers, hold]; omega
  have hsc : List.filter SceneNode.isMesh d.scene = [] := h.scene
  have hgd := all_disposed_of_replicate _ _ _ h.geometries
  have hmd := all_disposed_of_replicate _ _ _ h.materials
  obtain ⟨EG, hEG⟩ := hG
  obtain ⟨EM, hEM⟩ := hM
  obtain ⟨EC, hEC⟩ := hC
  obtain ⟨EMS, hEMS, hms⟩ := hMS
  obtain ⟨EB, hEB, hb⟩ := hB
  have hat : attachedMeshes t = [] ∨ attachedMeshes t = [SceneNode.mesh k] := by
    unfold attachedMeshes
    rcases hS with hS | hS
    · left; rw [hS, hsc]
    · right
      rw [hS, List.filter_append, ← List.erase_filter, hsc, h.meshes]
      simp [SceneNode.isMesh]
  refine ⟨?_, ?_, ?_, ?_, ?_⟩
  · rcases hat with hat | hat <;> simp [hat]
  · rw [hEG, List.take_left' hg]
    exact hgd
  · rw [hEM, List.take_left' hm]
    exact hmd
  · apply liveBindings_ge t (old ++ EC) (10 + 3 * k)
    · rw [hEC, hc, List.append_assoc]
    · intro c hcm
      unfold panelChildren at hcm
      rw [hEMS, hL, hEB, h.guiMountainsSettings, h.guiLights, h.guiBackground] at hcm
      simp only [List.mem_append, List.mem_cons, List.mem_singleton, List.not_mem_nil,
        or_false] at hcm
      rcases hcm with ((hcm | hcm) | hcm) | (hcm | hcm)
      · left; omega
      · right; rw [← hcl]; exact hms c hcm
      · left; omega
      · left; omega
      · right; rw [← hcl]; exact hb c hcm
  · intro m hmr hmem
    have hmk : m < k := List.mem_range.1 hmr
    have : SceneNode.mesh m ∈ attachedMeshes t := List.mem_filter.2 ⟨hmem, rfl⟩
    rcases hat with hat | hat
    · rw [hat] at this; cases this
    · rw [hat] at this
      simp at this
      omega

theorem createNew_trace (engine : Engine) (parameters : Parameters) (random : ℕ → ℚ)
    (k : ℕ) (d : World) (h : Cleared k d) :
    ∀ t ∈ traceStatements (createNew engine parameters random) d,
      (attachedMeshes t).length ≤ 1 ∧ ReleasedBelow k k (10 + 3 * k) k t := by
  simp only [traceStatements, createNew, newPlaneGeometry, newMeshStandardMaterial, addDisplacement,
    addColor, addWireframe, newMesh, geometryRotateX, displaceVertices, meshCastShadow,
    sceneAddMesh, sceneAdd, guiAdd, List.getElem?_concat_length, set_concat_length, List.length_append,
    List.length_singleton, List.append_assoc, List.singleton_append]
  simp only [List.mem_cons, forall_eq_or_imp, List.mem_singleton, forall_eq, List.not_mem_nil,
    false_imp_iff, implies_true, and_true]
  refine ⟨?_, ?_, ?_, ?_, ?_, ?_, ?_, ?_, ?_, ?_, ?_⟩
  all_goals
    apply created_state_released k d h
    · first
        | exact ⟨[], (List.append_nil _).symm⟩
        | exact ⟨_, rfl⟩
    · first
        | exact ⟨[], (List.append_nil _).symm⟩
        | exact ⟨_, rfl⟩
    · first
        | exact ⟨[], (List.append_nil _).symm⟩
        | exact ⟨_, rfl⟩
    · first
        | exact ⟨[], (List.append_nil _).symm, by simp⟩
        | exact ⟨_, rfl, by simp⟩
    · rfl
    · first
        | exact ⟨[], (List.append_nil _).symm, by simp⟩
        | exact ⟨_, rfl, by simp⟩
    · first
        | exact Or.inl rfl
        | exact Or.inr rfl
theorem mem_traceStatements_append (a b : List Statement) (s t : World)
    (h : t ∈ traceStatements (a ++ b) s) :
    t ∈ traceStatements a s ∨ ∃ d, runStatements a s = some d ∧ t ∈ traceStatements b d := by
  induction a generalizing s with
  | nil => exact Or.inr ⟨s, rfl, h⟩
  | cons f fs ih =>
    simp only [List.cons_append, traceStatements, runStatements] at h ⊢
    cases hf : f s with
    | none =>
      rw [hf] at h
      left
      simpa using h
    | some u =>
      rw [hf] at h
      simp only [List.mem_cons] at h ⊢
      rcases h with h | h
      · exact Or.inl (Or.inl h)
      · rcases ih u h with h | h
        · exact Or.inl (Or.inr h)
        · exact Or.inr h

theorem destroyOld_trace (n : ℕ) (s : World) (h : Live n s) :
    ∀ t ∈ traceStatements destroyOld s,
      (attachedMeshes t).length ≤ 1 ∧ allocated t = allocated s := by
  obtain ⟨g, hg, hgd⟩ := live_lookup_last _ _ _ h.geometries
  obtain ⟨m, hm, hmd⟩ := live_lookup_last _ _ _ h.materials
  obtain ⟨hc0, hc1, hc2⟩ := live_controllers_lookup n s h
  have hsc : List.filter SceneNode.isMesh s.scene = [SceneNode.mesh n] := h.scene
  simp only [traceStatements, destroyOld, geometryDispose, materialDispose, changeColorDestroy,
    changeWireframeDestroy, changeDisplacementDestroy, sceneRemoveMesh, controllerDestroy,
    BufferGeometry.dispose, MeshStandardMaterial.dispose, sceneRemove,
    h.geometry, h.material, h.mesh, h.changeColor, h.changeWireframe, h.changeDisplacement,
    hg, hm, hc0, hc1, hc2]
  simp only [List.mem_cons, forall_eq_or_imp, List.mem_singleton, forall_eq, List.not_mem_nil,
    false_imp_iff, implies_true, and_true]
  refine ⟨?_, ?_, ?_, ?_, ?_, ?_, ?_⟩
  all_goals try refine ⟨?_, ?_⟩
  all_goals first
    | (simp only [attachedMeshes]; rw [hsc]; simp)
    | (simp only [attachedMeshes]; rw [← List.erase_filter, hsc]; simp)
    | (simp [allocated])

theorem generateMountain_trace (engine : Engine) (parameters : Parameters) (random : ℕ → ℚ)
    (c : ℕ) (s : World) (h : Shape c s) :
    ∀ t ∈ generateMountainTrace engine parameters random s,
      (attachedMeshes t).length ≤ 1 ∧ (allocated s < allocated t → ReleasedSince s t) := by
  intro t ht
  cases c with
  | zero =>
    obtain ⟨hm, hc⟩ := h
    unfold generateMountainTrace statements at ht
    simp only [hm, ne_eq, not_true_eq_false, if_false, List.nil_append] at ht
    obtain ⟨h1, h2⟩ := createNew_trace engine parameters random 0 s hc t ht
    refine ⟨h1, fun _ => ?_⟩
    have hg : s.geometries.length = 0 := by
      have := congrArg List.length hc.geometries
      simpa using this
    have hmt : s.materials.length = 0 := by
      have := congrArg List.length hc.materials
      simpa using this
    obtain ⟨old, hold, hcc⟩ := hc.controllers
    have hcl : s.controllers.length = 10 := by
      simp [hcc, staticControllers, hold]
    unfold ReleasedSince
    rw [hg, hmt, hcl, hc.meshes]
    exact h2
  | succ n =>
    have hl : Live n s := h
    unfold generateMountainTrace statements at ht
    simp only [hl.mesh, ne_eq, reduceCtorEq, not_false_eq_true, if_true] at ht
    rcases mem_traceStatements_append _ _ _ _ ht with h1 | ⟨d, hd, h2⟩
    · obtain ⟨ha, hb⟩ := destroyOld_trace n s hl t h1
      exact ⟨ha, fun hlt => absurd hlt (by omega)⟩
    · obtain ⟨d', hd', hcl, _⟩ := destroyOld_live n s hl
      rw [hd] at hd'
      cases hd'
      obtain ⟨ha, hb⟩ := createNew_trace engine parameters random (n + 1) d hcl t h2
      refine ⟨ha, fun _ => ?_⟩
      have hg : s.geometries.length = n + 1 := by
        have := congrArg List.length hl.geometries
        simpa using this
      have hmt : s.materials.length = n + 1 := by
        have := congrArg List.length hl.materials
        simpa using this
      obtain ⟨old, hold, hcc⟩ := hl.controllers
      have hcl : s.controllers.length = 10 + 3 * (n + 1) := by
        simp [hcc, staticControllers, hold, materialControllers]; omega
      unfold ReleasedSince
      rw [hg, hmt, hcl, hl.meshes]
      exact hb
/-! ## The height loop: frame and refinement (C3, C10) -/

/-- C3: the height loop leaves every X and every Z component unchanged. For
every buffer and every sequence of draws, a single iteration, whatever its
index `i` and whatever the number of draws made before it, keeps each element
at an index not congruent to 1 modulo 3, and after the whole loop each such
element has the value it had before the loop; the buffer keeps its length. -/
theorem heightLoop_keeps_x_and_z (mountainHeight : ℚ) (random : ℕ → ℚ) (vertices : List ℚ)
    (j : ℕ) (hj : j % 3 ≠ 1) :
    (∀ i d : ℕ,
      (heightLoopBody mountainHeight random ⟨vertices, d⟩ i).vertices[j]? = vertices[j]?) ∧
    (heightLoop mountainHeight random vertices)[j]? = vertices[j]? ∧
    (heightLoop mountainHeight random vertices).length = vertices.length := by
  refine ⟨?_, ?_, heightLoop_length _ _ _⟩
  · intro i d
    simp only [heightLoopBody]
    rw [typedArraySet_eq_set, List.getElem?_set_ne]
    omega
  · rw [heightLoop_getElem?, if_neg]
    intro h
    exact hj h.1

/-- C3 on a buffer of two vertices: with draws all equal to 1/2 and height 1,
slot 3 (the X of the second vertex) is kept. -/
theorem heightLoop_keeps_x_and_z_witness :
    3 % 3 ≠ 1 ∧
    ((∀ i d : ℕ, (heightLoopBody 1 halfRandom ⟨[1, 2, 3, 4, 5, 6], d⟩ i).vertices[3]? =
        ([1, 2, 3, 4, 5, 6] : List ℚ)[3]?) ∧
     (heightLoop 1 halfRandom [1, 2, 3, 4, 5, 6])[3]? = ([1, 2, 3, 4, 5, 6] : List ℚ)[3]? ∧
     (heightLoop 1 halfRandom [1, 2, 3, 4, 5, 6]).length =
        ([1, 2, 3, 4, 5, 6] : List ℚ).length) :=
  ⟨by decide, heightLoop_keeps_x_and_z 1 halfRandom [1, 2, 3, 4, 5, 6] 3 (by decide)⟩

/-- C10 as stated fails: on a buffer of one vertex, with the default height
0.31 and the draw 1/2, the loop leaves `Y = 5200937 / 33554432`
(0.15500000119…), the single-precision rounding of the product, which is not
the product `r₀ * mountainHeight` itself. -/
theorem heightLoop_stores_single_precision :
    ([0, 0, 0] : List ℚ).length = 3 * 1 ∧
    (heightLoop defaultParameters.mountainHeight halfRandom [0, 0, 0])[3 * 0 + 1]? =
      some (5200937 / 33554432) ∧
    (5200937 / 33554432 : ℚ) ≠ halfRandom 0 * defaultParameters.mountainHeight := by
  refine ⟨rfl, ?_, ?_⟩
  · rw [heightLoop_getElem?]
    simp only [defaultParameters, halfRandom]
    rw [if_pos (by decide), roundDouble_half_default, fround_half_default]
  · simp only [defaultParameters, halfRandom, roundDouble_31_100]
    norm_num

/-- C10, amended: on a fixed-length buffer of length `3 * n` the loop as
written and the hardened loop over the vertex indices `[0, n)` produce the same
buffer, in which vertex `k < n` has `Y = fround (r_k * mountainHeight)`, the
double product rounded to single precision by the store; every iteration with
`n ≤ i` targets an index past the end and changes nothing; the loop as written
makes `3 * n + 1` draws, the hardened loop `n`. -/
theorem heightLoop_refines_hardenedLoop (mountainHeight : ℚ) (random : ℕ → ℚ)
    (vertices : List ℚ) (n : ℕ) (hlen : vertices.length = 3 * n) :
    heightLoop mountainHeight random vertices = hardenedLoop mountainHeight random vertices ∧
    (∀ k : ℕ, k < n →
      (heightLoop mountainHeight random vertices)[3 * k + 1]? =
        some (fround (roundDouble (random k * mountainHeight)))) ∧
    (∀ (i d : ℕ) (buffer : List ℚ), buffer.length = 3 * n → n ≤ i →
      3 * n ≤ i * 3 + 1 ∧
      (heightLoopBody mountainHeight random ⟨buffer, d⟩ i).vertices = buffer) ∧
    heightLoopDraws mountainHeight random vertices = 3 * n + 1 ∧
    hardenedLoopDraws mountainHeight random vertices = n := by
  refine ⟨?_, ?_, ?_, ?_, ?_⟩
  · apply List.ext_getElem?
    intro j
    rw [heightLoop_getElem?, hardenedLoop_getElem?]
    by_cases h : j % 3 = 1 ∧ j < vertices.length
    · have : j % 3 = 1 ∧ j + 2 < vertices.length / 3 * 3 + 3 ∧ j < vertices.length :=
        ⟨h.1, by omega, h.2⟩
      simp only [h, this, and_self, if_true]
    · have : ¬ (j % 3 = 1 ∧ j + 2 < vertices.length / 3 * 3 + 3 ∧ j < vertices.length) := by
        rintro ⟨a, _, c⟩
        exact h ⟨a, c⟩
      simp only [h, this, if_false]
  · intro k hk
    rw [heightLoop_getElem?]
    have h1 : (3 * k + 1) % 3 = 1 := by omega
    have h2 : 3 * k + 1 < vertices.length := by omega
    have h3 : (3 * k + 1) / 3 = k := by omega
    simp only [h1, h2, h3, and_self, if_true]
  · intro i d buffer hb hi
    exact ⟨by omega, heightLoopBody_out_of_range _ _ ⟨buffer, d⟩ _ (by simp only; omega)⟩
  · rw [heightLoopDraws_eq, hlen]
  · rw [hardenedLoopDraws_eq, hlen, Nat.mul_div_cancel_left _ (by decide : 0 < 3)]

/-- C10, amended, on a buffer of two vertices (`n = 2`): the same buffer, 7
draws against 2. -/
theorem heightLoop_refines_hardenedLoop_witness :
    ([1, 2, 3, 4, 5, 6] : List ℚ).length = 3 * 2 ∧
    heightLoop 1 sampleRandom [1, 2, 3, 4, 5, 6] =
      hardenedLoop 1 sampleRandom [1, 2, 3, 4, 5, 6] ∧
    heightLoopDraws 1 sampleRandom [1, 2, 3, 4, 5, 6] = 7 ∧
    hardenedLoopDraws 1 sampleRandom [1, 2, 3, 4, 5, 6] = 2 :=
  have h := heightLoop_refines_hardenedLoop 1 sampleRandom [1, 2, 3, 4, 5, 6] 2 rfl
  ⟨rfl, h.1, h.2.2.2.1, h.2.2.2.2⟩

/-! ## The mesh generator: claims C1, C2, C4-C9 -/

theorem length_flatMap_const {α β : Type} (l : List α) (f : α → List β) (c : ℕ)
    (h : ∀ x, (f x).length = c) : (l.flatMap f).length = l.length * c := by
  induction l with
  | nil => simp
  | cons x xs ih => simp [List.flatMap_cons, ih, h, Nat.succ_mul, Nat.add_comm]

theorem planeGeometryPositions_length (width height : ℚ) (w h : ℕ) :
    (planeGeometryPositions width height w h).length = 3 * ((w + 1) * (h + 1)) := by
  unfold planeGeometryPositions
  simp only
  rw [length_flatMap_const _ _ ((w + 1) * 3)]
  · simp only [List.length_range]
    ring
  · intro iy
    rw [length_flatMap_const _ _ 3]
    · simp
    · intro ix
      rfl

theorem rotateXPositions_length (tilt : Tilt) (l : List ℚ) :
    (rotateXPositions tilt l).length = l.length := by
  induction l using rotateXPositions.induct tilt with
  | case1 x y z rest ih => simp [rotateXPositions, ih]
  | case2 rest h =>
    unfold rotateXPositions
    split
    · rename_i x y z r
      exact absurd rfl (h x y z r)
    · rfl

theorem run_append (engine : Engine) (a b : List Event) (s : World) :
    run engine (a ++ b) s =
      match run engine a s with
      | none => none
      | some t => run engine b t := by
  induction a generalizing s with
  | nil => rfl
  | cons e es ih =>
    simp only [List.cons_append, run]
    cases step engine s e with
    | none => rfl
    | some t => exact ih t

/-- The state after any events followed by one call. -/
theorem run_regenerate (engine : Engine) (evs : List Event) (parameters : Parameters)
    (random : ℕ → ℚ) :
    ∃ s t, run engine evs initial = some s ∧ Shape (calls evs) s ∧
      generateMountain engine parameters random s = some t ∧
      run engine (evs ++ [Event.regenerate parameters random]) initial = some t ∧
      Live (calls evs) t ∧
      currentPositions t = some (heightLoop parameters.mountainHeight random
        (engine.rotateX (engine.planeGeometry parameters.planeWidth
          parameters.planeHeight parameters.segmentsWidth parameters.segmentsHeight))) ∧
      currentMaterial t = some newMaterial := by
  obtain ⟨s, hs, hsh⟩ := run_shape engine evs 0 initial initial_shape
  rw [Nat.zero_add] at hsh
  obtain ⟨t, ht, hl, hp, hm⟩ := generateMountain_shape engine parameters random _ s hsh
  refine ⟨s, t, hs, hsh, ht, ?_, hl, hp, hm⟩
  rw [run_append, hs]
  simp only [run, step, ht]


theorem sampleRandom_range (i : ℕ) : 0 ≤ sampleRandom i ∧ sampleRandom i < 1 := by
  unfold sampleRandom
  have h : (0 : ℚ) < 2 ^ (i + 1) := by positivity
  constructor
  · positivity
  · rw [div_lt_one h]
    exact one_lt_pow₀ (by norm_num) (by omega)

theorem highRandom_range (i : ℕ) : 0 ≤ highRandom i ∧ highRandom i < 1 := by
  unfold highRandom
  constructor <;> norm_num

theorem defaultParameters_mountainHeight :
    defaultParameters.mountainHeight = 5584463537939415 / 18014398509481984 :=
  roundDouble_31_100

/-- The position buffer and the Y components after a call, on any engine:
the buffer is the height loop applied to the rotated plane buffer, and every
vertex `k` of it has `Y = fround (roundDouble (random k * mountainHeight))`. -/
theorem positions_after_regenerate (engine : Engine) (evs : List Event)
    (parameters : Parameters) (random : ℕ → ℚ) :
    ∃ t buffer, run engine (evs ++ [Event.regenerate parameters random]) initial = some t ∧
      currentPositions t = some buffer ∧
      buffer = heightLoop parameters.mountainHeight random
        (engine.rotateX (engine.planeGeometry parameters.planeWidth parameters.planeHeight
          parameters.segmentsWidth parameters.segmentsHeight)) ∧
      vertexCount t = some (buffer.length / 3) ∧
      ∀ k, k < buffer.length / 3 →
        vertexY t k = some (fround (roundDouble (random k * parameters.mountainHeight))) := by
  obtain ⟨s, t, _, _, _, hrun, _, hp, _⟩ := run_regenerate engine evs parameters random
  refine ⟨t, _, hrun, hp, rfl, ?_, ?_⟩
  · simp only [vertexCount, hp, Option.map_some']
  · intro k hk
    simp only [vertexY, hp]
    rw [heightLoop_length] at hk
    rw [heightLoop_getElem?]
    have h1 : (3 * k + 1) % 3 = 1 := by omega
    have h2 : 3 * k + 1 < (engine.rotateX (engine.planeGeometry parameters.planeWidth
        parameters.planeHeight parameters.segmentsWidth parameters.segmentsHeight)).length := by
      omega
    have h3 : (3 * k + 1) / 3 = k := by omega
    simp only [h1, h2, h3, and_self, if_true]

/-- The buffer of the specified engine has three entries per grid vertex. -/
theorem specEngine_length (tilt : Tilt) (parameters : Parameters) :
    ((specEngine tilt).rotateX ((specEngine tilt).planeGeometry parameters.planeWidth
      parameters.planeHeight parameters.segmentsWidth parameters.segmentsHeight)).length =
      3 * ((parameters.segmentsWidth + 1) * (parameters.segmentsHeight + 1)) := by
  simp only [specEngine]
  rw [rotateXPositions_length, planeGeometryPositions_length]

/-- The vertex count after a call on the specified engine. -/
theorem generateMountain_vertex_count_aux (tilt : Tilt) (evs : List Event)
    (parameters : Parameters) (random : ℕ → ℚ) :
    ∃ t buffer,
      run (specEngine tilt) (evs ++ [Event.regenerate parameters random]) initial = some t ∧
      currentPositions t = some buffer ∧
      buffer.length = 3 * ((parameters.segmentsWidth + 1) * (parameters.segmentsHeight + 1)) ∧
      vertexCount t = some ((parameters.segmentsWidth + 1) * (parameters.segmentsHeight + 1)) ∧
      buffer.length = (planeGeometryPositions parameters.planeWidth parameters.planeHeight
        parameters.segmentsWidth parameters.segmentsHeight).length := by
  obtain ⟨t, buffer, hrun, hp, hb, hc, _⟩ :=
    positions_after_regenerate (specEngine tilt) evs parameters random
  have hlen : buffer.length =
      3 * ((parameters.segmentsWidth + 1) * (parameters.segmentsHeight + 1)) := by
    rw [hb, heightLoop_length, specEngine_length]
  refine ⟨t, buffer, hrun, hp, hlen, ?_, ?_⟩
  · rw [hc, hlen, Nat.mul_div_cancel_left _ (by decide : 0 < 3)]
  · rw [hlen, planeGeometryPositions_length]

/-- C1: on the engine of the specification, for every parameter record with
`segmentsWidth = w ≥ 1` and `segmentsHeight = h ≥ 1`, every sequence of draws
and every earlier history of the program, the geometry left by
`generateMountain` has `(w + 1) * (h + 1)` vertices: its position buffer has
length `3 * ((w + 1) * (h + 1))`, the length of the buffer built by the
plane-geometry constructor, which the height loop neither grows nor shrinks. -/
theorem generateMountain_vertex_count (tilt : Tilt) (evs : List Event) (parameters : Parameters)
    (random : ℕ → ℚ) (hw : 1 ≤ parameters.segmentsWidth) (hh : 1 ≤ parameters.segmentsHeight) :
    ∃ t buffer,
      run (specEngine tilt) (evs ++ [Event.regenerate parameters random]) initial = some t ∧
      currentPositions t = some buffer ∧
      buffer.length = 3 * ((parameters.segmentsWidth + 1) * (parameters.segmentsHeight + 1)) ∧
      vertexCount t = some ((parameters.segmentsWidth + 1) * (parameters.segmentsHeight + 1)) ∧
      buffer.length = (planeGeometryPositions parameters.planeWidth parameters.planeHeight
        parameters.segmentsWidth parameters.segmentsHeight).length := by
  have _ := hw
  have _ := hh
  exact generateMountain_vertex_count_aux tilt evs parameters random

/-- C1 on the defaults (441 vertices) and after changing `segmentsWidth` from
20 to 8 (189 vertices). -/
theorem generateMountain_vertex_count_witness :
    (1 ≤ defaultParameters.segmentsWidth ∧ 1 ≤ defaultParameters.segmentsHeight) ∧
    (run sampleEngine ([] ++ [Event.regenerate defaultParameters sampleRandom]) initial).bind
      vertexCount = some 441 ∧
    (run sampleEngine ([Event.regenerate defaultParameters sampleRandom] ++
        [Event.regenerate { defaultParameters with segmentsWidth := 8 } sampleRandom])
        initial).bind vertexCount = some 189 := by
  refine ⟨⟨by decide, by decide⟩, ?_, ?_⟩
  · obtain ⟨t, b, h1, _, _, h4, _⟩ := generateMountain_vertex_count sampleTilt []
      defaultParameters sampleRandom (by decide) (by decide)
    simp only [sampleEngine]
    rw [h1]
    simp only [Option.some_bind, h4]
    rfl
  · obtain ⟨t, b, h1, _, _, h4, _⟩ := generateMountain_vertex_count sampleTilt
      [Event.regenerate defaultParameters sampleRandom]
      { defaultParameters with segmentsWidth := 8 } sampleRandom (by decide) (by decide)
    simp only [sampleEngine]
    rw [h1]
    simp only [Option.some_bind, h4]
    rfl

/-- On the specified engine vertex `k` of the grid exists and holds the rounded
product of draw `k`. -/
theorem specEngine_vertexY (tilt : Tilt) (evs : List Event) (parameters : Parameters)
    (random : ℕ → ℚ) (k : ℕ)
    (hk : k < (parameters.segmentsWidth + 1) * (parameters.segmentsHeight + 1)) :
    (run (specEngine tilt) (evs ++ [Event.regenerate parameters random]) initial).bind
      (fun t => vertexY t k) =
      some (fround (roundDouble (random k * parameters.mountainHeight))) := by
  obtain ⟨t, buffer, hrun, _, hb, _, hy⟩ :=
    positions_after_regenerate (specEngine tilt) evs parameters random
  rw [hrun]
  simp only [Option.some_bind]
  apply hy
  rw [hb, heightLoop_length]
  have := specEngine_length tilt parameters
  omega

/-- C2 as stated fails, in two ways. With the height slider at its minimum
(`mountainHeight = 0`) the Y component of vertex 0 after `generateMountain` is
0, which does not lie in the empty interval `[0, 0)`. With the default height
0.31 and a draw of `1 - 2 ^ (-25)`, which lies in `[0, 1)`, the Y component of
vertex 0 is `5200937 / 16777216` (0.3100000023841858), the single-precision
rounding of the product, which is not below `mountainHeight`. -/
theorem vertexY_not_below_mountainHeight :
    ((∀ i, 0 ≤ sampleRandom i ∧ sampleRandom i < 1) ∧
      (run sampleEngine [Event.regenerate flatParameters sampleRandom] initial).bind
        (fun t => vertexY t 0) = some 0 ∧
      ¬ ((0 : ℚ) ≤ 0 ∧ (0 : ℚ) < flatParameters.mountainHeight)) ∧
    ((∀ i, 0 ≤ highRandom i ∧ highRandom i < 1) ∧
      (run sampleEngine [Event.regenerate defaultParameters highRandom] initial).bind
        (fun t => vertexY t 0) = some (5200937 / 16777216) ∧
      ¬ ((0 : ℚ) ≤ 5200937 / 16777216 ∧
        (5200937 / 16777216 : ℚ) < defaultParameters.mountainHeight)) := by
  refine ⟨⟨sampleRandom_range, ?_, ?_⟩, ⟨highRandom_range, ?_, ?_⟩⟩
  · have h := specEngine_vertexY sampleTilt [] flatParameters sampleRandom 0 (by decide)
    simp only [List.nil_append] at h
    simp only [sampleEngine]
    rw [h]
    simp [flatParameters, roundDouble_zero, fround_zero]
  · simp [flatParameters]
  · have h := specEngine_vertexY sampleTilt [] defaultParameters highRandom 0 (by decide)
    simp only [List.nil_append] at h
    simp only [sampleEngine]
    rw [h]
    simp only [highRandom, defaultParameters]
    rw [roundDouble_high_default, fround_high_default]
  · rw [defaultParameters_mountainHeight]
    norm_num

/-- C2, amended: for every parameter record with `mountainHeight ≥ 0`, every
grid, every sequence of draws each lying in `[0, 1)` and every earlier history,
after `generateMountain` the Y component (buffer index `3 * k + 1`) of every
vertex `k` of the geometry lies in the closed interval from 0 to
`mountainHeight` rounded to single precision, `fround mountainHeight` when
`mountainHeight` is a double. -/
theorem vertexY_in_range (engine : Engine) (evs : List Event) (parameters : Parameters)
    (random : ℕ → ℚ) (hmh : 0 ≤ parameters.mountainHeight)
    (hr : ∀ i, 0 ≤ random i ∧ random i < 1) :
    ∃ t n, run engine (evs ++ [Event.regenerate parameters random]) initial = some t ∧
      vertexCount t = some n ∧
      ∀ k, k < n → ∃ y, vertexY t k = some y ∧ 0 ≤ y ∧
        y ≤ fround (roundDouble parameters.mountainHeight) ∧
        (roundDouble parameters.mountainHeight = parameters.mountainHeight →
          y ≤ fround parameters.mountainHeight) := by
  obtain ⟨t, buffer, hrun, _, _, hc, hy⟩ :=
    positions_after_regenerate engine evs parameters random
  have hprod : ∀ k, 0 ≤ random k * parameters.mountainHeight ∧
      random k * parameters.mountainHeight ≤ parameters.mountainHeight := by
    intro k
    refine ⟨mul_nonneg (hr k).1 hmh, ?_⟩
    calc random k * parameters.mountainHeight ≤ 1 * parameters.mountainHeight :=
          mul_le_mul_of_nonneg_right (le_of_lt (hr k).2) hmh
      _ = parameters.mountainHeight := one_mul _
  have hle : ∀ k, fround (roundDouble (random k * parameters.mountainHeight)) ≤
      fround (roundDouble parameters.mountainHeight) := fun k =>
    fround_mono (roundDouble_nonneg (hprod k).1) (roundDouble_mono (hprod k).1 (hprod k).2)
  refine ⟨t, _, hrun, hc, fun k hk => ⟨_, hy k hk, ?_, hle k, ?_⟩⟩
  · exact fround_nonneg (roundDouble_nonneg (hprod k).1)
  · intro hd
    have := hle k
    rwa [hd] at this

/-- C2, amended, on the default grid: all 441 vertices have Y between 0 and
`5200937 / 16777216`, the single-precision value of 0.31. -/
theorem vertexY_in_range_witness :
    (0 ≤ defaultParameters.mountainHeight ∧ ∀ i, 0 ≤ sampleRandom i ∧ sampleRandom i < 1) ∧
    ∃ t, run sampleEngine ([] ++ [Event.regenerate defaultParameters sampleRandom]) initial =
        some t ∧
      vertexCount t = some 441 ∧
      ∀ k, k < 441 → ∃ y, vertexY t k = some y ∧ 0 ≤ y ∧ y ≤ 5200937 / 16777216 := by
  have h0 : 0 ≤ defaultParameters.mountainHeight := by
    rw [defaultParameters_mountainHeight]
    norm_num
  refine ⟨⟨h0, sampleRandom_range⟩, ?_⟩
  obtain ⟨t, n, h1, h2, h3⟩ := vertexY_in_range sampleEngine [] defaultParameters sampleRandom
    h0 sampleRandom_range
  obtain ⟨t', b, h1', _, _, h4, _⟩ := generateMountain_vertex_count_aux sampleTilt []
    defaultParameters sampleRandom
  simp only [sampleEngine] at h1
  rw [h1] at h1'
  cases h1'
  rw [h4] at h2
  cases h2
  refine ⟨t, h1, h4, fun k hk => ?_⟩
  obtain ⟨y, hy, hy0, hy1, _⟩ := h3 k hk
  refine ⟨y, hy, hy0, ?_⟩
  have hb : fround (roundDouble defaultParameters.mountainHeight) = 5200937 / 16777216 := by
    simp only [defaultParameters]
    rw [roundDouble_default_idem, fround_default]
  rwa [hb] at hy1

/-- C6: when `mountainHeight = 0`, for every grid, every sequence of draws and
every earlier history, after `generateMountain` the Y component of every vertex
of the geometry equals exactly 0. -/
theorem vertexY_zero_height (engine : Engine) (evs : List Event) (parameters : Parameters)
    (random : ℕ → ℚ) (hmh : parameters.mountainHeight = 0) :
    ∃ t n, run engine (evs ++ [Event.regenerate parameters random]) initial = some t ∧
      vertexCount t = some n ∧ ∀ k, k < n → vertexY t k = some 0 := by
  obtain ⟨t, buffer, hrun, _, _, hc, hy⟩ :=
    positions_after_regenerate engine evs parameters random
  refine ⟨t, _, hrun, hc, fun k hk => ?_⟩
  rw [hy k hk, hmh, mul_zero, roundDouble_zero, fround_zero]

/-- C6 on the default grid after a regeneration with height 0: all 441
vertices have `Y = 0`. -/
theorem vertexY_zero_height_witness :
    flatParameters.mountainHeight = 0 ∧
    ∃ t, run sampleEngine ([Event.regenerate defaultParameters sampleRandom] ++
        [Event.regenerate flatParameters sampleRandom]) initial = some t ∧
      vertexCount t = some 441 ∧ ∀ k, k < 441 → vertexY t k = some 0 := by
  refine ⟨rfl, ?_⟩
  obtain ⟨t, n, h1, h2, h3⟩ := vertexY_zero_height sampleEngine
    [Event.regenerate defaultParameters sampleRandom] flatParameters sampleRandom rfl
  obtain ⟨t', b, h1', _, _, h4, _⟩ := generateMountain_vertex_count_aux sampleTilt
    [Event.regenerate defaultParameters sampleRandom] flatParameters sampleRandom
  simp only [sampleEngine] at h1
  rw [h1] at h1'
  cases h1'
  rw [h4] at h2
  cases h2
  exact ⟨t, h1, h4, h3⟩

/-- C8: two calls of `generateMountain` with the same parameter record and
any two sequences of draws (after any two histories, one of which may extend
the other) yield position buffers of the same length, hence the same vertex
count, that agree at every index not congruent to 1 modulo 3: equal X and
equal Z at every vertex; only Y components can differ. -/
theorem regenerate_same_structure (engine : Engine) (evs₁ evs₂ : List Event)
    (parameters : Parameters) (random₁ random₂ : ℕ → ℚ) :
    ∃ t₁ t₂ b₁ b₂,
      run engine (evs₁ ++ [Event.regenerate parameters random₁]) initial = some t₁ ∧
      run engine (evs₂ ++ [Event.regenerate parameters random₂]) initial = some t₂ ∧
      currentPositions t₁ = some b₁ ∧ currentPositions t₂ = some b₂ ∧
      b₁.length = b₂.length ∧ vertexCount t₁ = vertexCount t₂ ∧
      ∀ j, j % 3 ≠ 1 → b₁[j]? = b₂[j]? := by
  obtain ⟨t₁, b₁, hrun₁, hp₁, hb₁, hc₁, _⟩ :=
    positions_after_regenerate engine evs₁ parameters random₁
  obtain ⟨t₂, b₂, hrun₂, hp₂, hb₂, hc₂, _⟩ :=
    positions_after_regenerate engine evs₂ parameters random₂
  have hlen : b₁.length = b₂.length := by
    rw [hb₁, hb₂, heightLoop_length, heightLoop_length]
  refine ⟨t₁, t₂, b₁, b₂, hrun₁, hrun₂, hp₁, hp₂, hlen, ?_, ?_⟩
  · rw [hc₁, hc₂, hlen]
  · intro j hj
    rw [hb₁, hb₂, heightLoop_getElem?, heightLoop_getElem?, if_neg (fun h => hj h.1),
      if_neg (fun h => hj h.1)]

theorem live_lengths (n : ℕ) (s : World) (h : Live n s) :
    s.geometries.length = n + 1 ∧ s.materials.length = n + 1 ∧
    s.controllers.length = 10 + 3 * (n + 1) := by
  refine ⟨?_, ?_, ?_⟩
  · have := congrArg List.length h.geometries
    simpa using this
  · have := congrArg List.length h.materials
    simpa using this
  · obtain ⟨old, hold, hcc⟩ := h.controllers
    simp [hcc, staticControllers, hold, materialControllers]; omega

theorem live_panelChildren (n : ℕ) (s : World) (h : Live n s) :
    panelChildren s =
      [0, 1, 2, 3, 4, 10 + 3 * n, 11 + 3 * n, 6, 7, 8, 9, 5, 12 + 3 * n] := by
  simp [panelChildren, h.guiMountainsSettings, h.guiLights, h.guiBackground]

theorem live_bound (n : ℕ) (s : World) (h : Live n s) :
    (∀ c, c < 10 → boundToMaterial s c = false) ∧ boundToMaterial s (10 + 3 * n) = true ∧
    boundToMaterial s (11 + 3 * n) = true ∧ boundToMaterial s (12 + 3 * n) = true := by
  obtain ⟨h0, h1, h2⟩ := live_controllers_lookup n s h
  obtain ⟨old, _, hcc⟩ := h.controllers
  refine ⟨fun c hc => ?_, ?_, ?_, ?_⟩
  · exact static_not_bound s (old ++ materialControllers n) (by rw [hcc, List.append_assoc]) c hc
  · simp [boundToMaterial, h0]
  · simp [boundToMaterial, h1]
  · simp [boundToMaterial, h2]

theorem live_liveBindings (n : ℕ) (s : World) (h : Live n s) :
    liveBindings s = [10 + 3 * n, 11 + 3 * n, 12 + 3 * n] := by
  obtain ⟨hs, h0, h1, h2⟩ := live_bound n s h
  unfold liveBindings
  rw [live_panelChildren n s h]
  simp [List.filter_cons, hs, h0, h1, h2]

theorem filter_not_length {α : Type} (l : List α) (d : α → Bool) (n : ℕ)
    (h : l.map d = List.replicate n true ++ [false]) :
    (l.filter fun x => !d x).length = 1 := by
  have h1 : ((l.map d).filter fun b => !b).length = 1 := by
    rw [h, List.filter_append]
    simp
  rw [List.filter_map, List.length_map] at h1
  exact h1

theorem earlier_disposed {α : Type} (l : List α) (d : α → Bool) (n i : ℕ)
    (h : l.map d = List.replicate n true ++ [false]) (hi : i < n) :
    (l[i]?).map d = some true := by
  rw [← List.getElem?_map, h, List.getElem?_append_left (by simpa using hi)]
  simp [hi]

theorem runStatements_mem_trace (l : List Statement) (s t : World)
    (h : runStatements l s = some t) : s ∈ traceStatements l s ∧ t ∈ traceStatements l s := by
  induction l generalizing s with
  | nil =>
    simp only [runStatements, Option.some.injEq] at h
    subst h
    simp [traceStatements]
  | cons f fs ih =>
    simp only [runStatements, traceStatements] at h ⊢
    cases hf : f s with
    | none => rw [hf] at h; cases h
    | some u =>
      rw [hf] at h
      simp only [List.mem_cons, true_or, true_and]
      exact Or.inr (ih u h).2

/-- C4: from the initial state (`mesh = null`, no mesh attached) every
sequence of events runs to a state `s` in which no mesh is attached when no
call has been made, and after `n ≥ 1` calls exactly one mesh node is attached
and it is the one held in `mesh`; a further call from `s` completes, and in
every state it passes through at most one mesh is attached. -/
theorem one_mesh_attached (engine : Engine) (evs : List Event) :
    ∃ s, run engine evs initial = some s ∧
      (calls evs = 0 → s.mesh = none ∧ attachedMeshes s = []) ∧
      (1 ≤ calls evs → ∃ m, s.mesh = some m ∧ attachedMeshes s = [SceneNode.mesh m]) ∧
      ∀ (parameters : Parameters) (random : ℕ → ℚ),
        (∃ t, generateMountain engine parameters random s = some t ∧
          t ∈ generateMountainTrace engine parameters random s) ∧
        ∀ t ∈ generateMountainTrace engine parameters random s, (attachedMeshes t).length ≤ 1 := by
  obtain ⟨s, hs, hsh⟩ := run_shape engine evs 0 initial initial_shape
  rw [Nat.zero_add] at hsh
  refine ⟨s, hs, ?_, ?_, ?_⟩
  · intro h0
    rw [h0] at hsh
    exact ⟨hsh.1, hsh.2.scene⟩
  · intro h1
    obtain ⟨n, hn⟩ : ∃ n, calls evs = n + 1 := ⟨calls evs - 1, by omega⟩
    rw [hn] at hsh
    have hl : Live n s := hsh
    exact ⟨n, hl.mesh, hl.scene⟩
  · intro parameters random
    refine ⟨?_, fun t ht => (generateMountain_trace engine parameters random _ s hsh t ht).1⟩
    obtain ⟨t, ht, _⟩ := generateMountain_shape engine parameters random _ s hsh
    exact ⟨t, ht, (runStatements_mem_trace _ s t ht).2⟩

/-- C5: after `N ≥ 1` calls of `generateMountain` from the initial state
exactly one geometry and one material are not disposed, the live material
bindings are exactly the three created by the last call (displacement scale,
tint colour, wireframe), `N` geometries, `N` materials and `3 * N` material
controllers have been created, each of the `N - 1` earlier geometries and
materials is disposed, none of the `3 * (N - 1)` earlier controllers is
attached to the panel; a further call allocates six objects (a geometry, a
material, three controllers, a mesh), and in every state it passes through, as
soon as anything new has been allocated everything that existed before the call
is released. -/
theorem resources_do_not_leak (engine : Engine) (evs : List Event) (N : ℕ)
    (hN : 1 ≤ N) (hcalls : calls evs = N) :
    ∃ s, run engine evs initial = some s ∧
      (liveGeometries s).length = 1 ∧ (liveMaterials s).length = 1 ∧
      liveBindings s = [10 + 3 * (N - 1), 11 + 3 * (N - 1), 12 + 3 * (N - 1)] ∧
      (s.controllers[10 + 3 * (N - 1)]?).map (·.property) = some Property.displacementScale ∧
      (s.controllers[11 + 3 * (N - 1)]?).map (·.property) = some Property.color ∧
      (s.controllers[12 + 3 * (N - 1)]?).map (·.property) = some Property.wireframe ∧
      s.geometries.length = N ∧ s.materials.length = N ∧ s.controllers.length = 10 + 3 * N ∧
      (∀ i, i < N - 1 →
        (s.geometries[i]?).map (·.disposed) = some true ∧
        (s.materials[i]?).map (·.disposed) = some true) ∧
      (∀ c, 10 ≤ c → c < 10 + 3 * (N - 1) → c ∉ panelChildren s) ∧
      ∀ (parameters : Parameters) (random : ℕ → ℚ),
        (∃ t, generateMountain engine parameters random s = some t ∧
          t ∈ generateMountainTrace engine parameters random s ∧
          allocated t = allocated s + 6) ∧
        ∀ t ∈ generateMountainTrace engine parameters random s,
          allocated s < allocated t → ReleasedSince s t := by
  obtain ⟨s, hs, hsh⟩ := run_shape engine evs 0 initial initial_shape
  rw [Nat.zero_add] at hsh
  obtain ⟨n, hn⟩ : ∃ n, N = n + 1 := ⟨N - 1, by omega⟩
  subst hn
  have hl : Live n s := by rw [hcalls] at hsh; exact hsh
  obtain ⟨hg, hm, hc⟩ := live_lengths n s hl
  obtain ⟨h0, h1, h2⟩ := live_controllers_lookup n s hl
  simp only [Nat.add_sub_cancel]
  refine ⟨s, hs, filter_not_length _ _ n hl.geometries, filter_not_length _ _ n hl.materials,
    live_liveBindings n s hl, by rw [h0]; rfl, by rw [h1]; rfl, by rw [h2]; rfl, hg, hm, hc,
    ?_, ?_, ?_⟩
  · intro i hi
    exact ⟨earlier_disposed _ _ n i hl.geometries hi, earlier_disposed _ _ n i hl.materials hi⟩
  · intro c hc1 hc2
    rw [live_panelChildren n s hl]
    simp only [List.mem_cons, List.mem_singleton, List.not_mem_nil, or_false, not_or]
    omega
  · intro parameters random
    refine ⟨?_, fun t ht => (generateMountain_trace engine parameters random _ s hsh t ht).2⟩
    obtain ⟨t, ht, hlt, _⟩ := generateMountain_shape engine parameters random _ s hsh
    rw [hcalls] at hlt
    obtain ⟨hg', hm', hc'⟩ := live_lengths (n + 1) t hlt
    refine ⟨t, ht, (runStatements_mem_trace _ s t ht).2, ?_⟩
    unfold allocated
    rw [hg, hm, hc, hg', hm', hc', hl.meshes, hlt.meshes]
    omega

/-- C7: `generateMountain` completes from every reachable state. On the
first call `mesh` is `null` and the destroy branch is skipped; whenever `mesh`
holds a mesh `m`, the destroy branch runs without throwing, `geometry` and
`material` hold the last geometry and material created, both not disposed,
mesh `m` pairs them and is attached to the scene, and the three handles hold
the last three controllers created, bound to material `m` and still attached
to their folders. -/
theorem generateMountain_never_throws (engine : Engine) (evs : List Event) (parameters : Parameters)
    (random : ℕ → ℚ) :
    initial.mesh = none ∧
    ∃ s, run engine evs initial = some s ∧
      (∃ t, generateMountain engine parameters random s = some t) ∧
      (s.mesh = none → statements engine parameters random s = createNew engine parameters random) ∧
      ∀ m, s.mesh = some m →
        (∃ d, runStatements destroyOld s = some d) ∧
        s.geometry = some m ∧ s.material = some m ∧
        s.geometries.length = m + 1 ∧ s.materials.length = m + 1 ∧ s.meshes.length = m + 1 ∧
        (∃ g, s.geometries[m]? = some g ∧ g.disposed = false) ∧
        (∃ mat, s.materials[m]? = some mat ∧ mat.disposed = false) ∧
        s.meshes[m]? = some (Mesh.mk m m true) ∧ SceneNode.mesh m ∈ s.scene ∧
        ∃ cd cc cw, s.changeDisplacement = some cd ∧ s.changeColor = some cc ∧
          s.changeWireframe = some cw ∧
          cc = cd + 1 ∧ cw = cc + 1 ∧ s.controllers.length = cw + 1 ∧
          s.controllers[cd]? =
            some (Controller.mk .guiMountainsSettings (.material m) .displacementScale) ∧
          s.controllers[cc]? = some (Controller.mk .guiMountainsSettings (.material m) .color) ∧
          s.controllers[cw]? = some (Controller.mk .guiBackground (.material m) .wireframe) ∧
          cd ∈ s.guiMountainsSettings ∧ cc ∈ s.guiMountainsSettings ∧ cw ∈ s.guiBackground := by
  refine ⟨rfl, ?_⟩
  obtain ⟨s, hs, hsh⟩ := run_shape engine evs 0 initial initial_shape
  rw [Nat.zero_add] at hsh
  obtain ⟨t, ht, _⟩ := generateMountain_shape engine parameters random _ s hsh
  refine ⟨s, hs, ⟨t, ht⟩, ?_, ?_⟩
  · intro hnone
    simp [statements, hnone]
  · intro m hm
    cases hc : calls evs with
    | zero =>
      rw [hc] at hsh
      rw [hsh.1] at hm
      cases hm
    | succ n =>
      rw [hc] at hsh
      have hl : Live n s := hsh
      have hmn : m = n := by
        have := hl.mesh
        rw [hm] at this
        exact Option.some.inj this
      subst hmn
      obtain ⟨hg, hmt, hcl⟩ := live_lengths m s hl
      obtain ⟨h0, h1, h2⟩ := live_controllers_lookup m s hl
      obtain ⟨d, hd, _⟩ := destroyOld_live m s hl
      have hscene : SceneNode.mesh m ∈ s.scene := by
        have : SceneNode.mesh m ∈ attachedMeshes s := by rw [hl.scene]; simp
        exact (List.mem_filter.1 this).1
      refine ⟨⟨d, hd⟩, hl.geometry, hl.material, hg, hmt, hl.meshes,
        live_lookup_last _ _ _ hl.geometries, live_lookup_last _ _ _ hl.materials,
        hl.meshObject, hscene, 10 + 3 * m, 11 + 3 * m, 12 + 3 * m, hl.changeDisplacement,
        hl.changeColor, hl.changeWireframe, by omega, by omega, by omega, h0, h1, h2, ?_, ?_, ?_⟩
      · rw [hl.guiMountainsSettings]; simp
      · rw [hl.guiMountainsSettings]; simp
      · rw [hl.guiBackground]; simp

theorem editMaterial_current (n : ℕ) (s : World) (h : Live n s) (c : ℕ) (parent : Folder)
    (property : Property) (f : MeshStandardMaterial → MeshStandardMaterial)
    (hc : s.controllers[c]? = some (Controller.mk parent (.material n) property))
    (hmem : c ∈ panelChildren s) :
    currentMaterial (editMaterial c property f s) = (currentMaterial s).map f := by
  obtain ⟨mat, hmat, _⟩ := live_lookup_last _ _ _ h.materials
  obtain ⟨_, hlen, _⟩ := live_lengths n s h
  unfold editMaterial
  simp only [hmem, if_true, hc, hmat]
  simp only [currentMaterial, h.material, hmat, Option.map_some']
  rw [List.getElem?_set_self (by omega)]

/-- C9: after every call of `generateMountain`, whatever happened before
(panel edits included), the current material has `displacementScale = 0`,
`wireframe = false`, tint `0xababab`, double-sided rendering, `alphaTest = 1`,
`roughness = 10` and the five textures in their slots, and the current mesh
casts shadows. Panel edits made after the call through the three handles do
change displacement, tint and wireframe of that material, so they are lost at
the next call. -/
theorem regenerate_resets_material (engine : Engine) (evs : List Event) (parameters : Parameters)
    (random : ℕ → ℚ) :
    ∃ t material mesh,
      run engine (evs ++ [Event.regenerate parameters random]) initial = some t ∧
      currentMaterial t = some material ∧ currentMesh t = some mesh ∧
      material.displacementScale = 0 ∧ material.wireframe = false ∧
      material.color = 0xababab ∧ material.side = Side.DoubleSide ∧
      material.alphaTest = 1 ∧ material.roughness = 10 ∧
      material.map = Texture.colorTexture ∧ material.aoMap = Texture.ambientOcclusionTexture ∧
      material.displacementMap = Texture.heightTexture ∧
      material.normalMap = Texture.normalTexture ∧
      material.roughnessMap = Texture.roughnessTexture ∧
      mesh.castShadow = true ∧
      ∃ cd cc cw, t.changeDisplacement = some cd ∧ t.changeColor = some cc ∧
        t.changeWireframe = some cw ∧
        ∀ (v : ℚ) (c : ℕ) (b : Bool),
          (run engine [Event.slideDisplacement cd v, Event.pickColor cc c,
            Event.toggleWireframe cw b] t).bind currentMaterial =
            some { material with displacementScale := v, color := c, wireframe := b } := by
  obtain ⟨s, t, _, _, _, hrun, hl, _, hm⟩ := run_regenerate engine evs parameters random
  have hmesh : currentMesh t = some (Mesh.mk (calls evs) (calls evs) true) := by
    simp only [currentMesh, hl.mesh, hl.meshObject]
  refine ⟨t, newMaterial, _, hrun, hm, hmesh, rfl, rfl, rfl, rfl, rfl, rfl, rfl, rfl, rfl, rfl,
    rfl, rfl, _, _, _, hl.changeDisplacement, hl.changeColor, hl.changeWireframe, ?_⟩
  intro v c b
  have e1 : Live (calls evs) (editMaterial (10 + 3 * calls evs) .displacementScale
      (fun mat => { mat with displacementScale := v }) t) :=
    editMaterial_shape (10 + 3 * calls evs) .displacementScale
      (fun mat => { mat with displacementScale := v }) (fun _ => rfl) (calls evs + 1) t hl
  have e2 : Live (calls evs) (editMaterial (11 + 3 * calls evs) .color
      (fun mat => { mat with color := c }) (editMaterial (10 + 3 * calls evs) .displacementScale
      (fun mat => { mat with displacementScale := v }) t)) :=
    editMaterial_shape (11 + 3 * calls evs) .color
      (fun mat => { mat with color := c }) (fun _ => rfl) (calls evs + 1) _ e1
  simp only [run, step, Option.some_bind]
  rw [editMaterial_current _ _ e2 _ _ _ _ (live_controllers_lookup _ _ e2).2.2
      (by rw [live_panelChildren _ _ e2]; simp),
    editMaterial_current _ _ e1 _ _ _ _ (live_controllers_lookup _ _ e1).2.1
      (by rw [live_panelChildren _ _ e1]; simp),
    editMaterial_current _ _ hl _ _ _ _ (live_controllers_lookup _ _ hl).1
      (by rw [live_panelChildren _ _ hl]; simp), hm]
  rfl

/-- C5 after two calls with a panel edit in between. -/
theorem resources_do_not_leak_witness :
    (1 ≤ 2 ∧
      calls [Event.regenerate defaultParameters sampleRandom,
        Event.slideDisplacement 10 (1 / 2),
        Event.regenerate flatParameters sampleRandom] = 2) ∧
    ∃ s, run sampleEngine [Event.regenerate defaultParameters sampleRandom,
        Event.slideDisplacement 10 (1 / 2),
        Event.regenerate flatParameters sampleRandom] initial = some s ∧
      (liveGeometries s).length = 1 ∧ (liveMaterials s).length = 1 ∧
      liveBindings s = [13, 14, 15] ∧
      s.geometries.length = 2 ∧ s.materials.length = 2 ∧ s.controllers.length = 16 := by
  refine ⟨⟨by decide, rfl⟩, ?_⟩
  obtain ⟨s, h1, h2, h3, h4, _, _, _, h5, h6, h7, _⟩ :=
    resources_do_not_leak sampleEngine [Event.regenerate defaultParameters sampleRandom,
        Event.slideDisplacement 10 (1 / 2),
        Event.regenerate flatParameters sampleRandom] 2 (by decide) rfl
  exact ⟨s, h1, h2, h3, h4, h5, h6, h7⟩

end Terrain
